import Mathlib

/-! Session store and command pipeline of the legal-case client.

A shallow embedding of `frontend/src/store/useCaseStore.js` (the zustand
session store), of `handleSubmit` in `frontend/src/components/ChatComposer.jsx`
(the command pipeline), of `handleStop` in
`frontend/src/components/MasterAgentControls.jsx`, of `onDrop` in
`frontend/src/components/FileDropzone.jsx` (the upload pipeline) and of the
module state and functions of `frontend/src/components/Toaster.jsx` (the
notification broadcaster).

JavaScript values are embedded as the inductive type `JSVal`; an object is an
association list of own properties in property order.  Numbers are the integers
(the store handles numbers opaquely; no arithmetic is performed on them).
-/

namespace CaseStore

/-! ## JavaScript values -/

/-- A JavaScript value: the primitives, arrays, and objects given by their own
enumerable properties in property order. -/
inductive JSVal where
  | undefined
  | null
  | bool (b : Bool)
  | num (n : Int)
  | str (s : String)
  | arr (items : List JSVal)
  | obj (fields : List (String × JSVal))

/-- An object: its own properties, in property order. -/
abbrev Obj := List (String × JSVal)

namespace JSVal

mutual
/-- Structural equality test on values. -/
def beq : JSVal → JSVal → Bool
  | undefined, undefined => true
  | null, null => true
  | bool a, bool b => a == b
  | num a, num b => a == b
  | str a, str b => a == b
  | arr a, arr b => beqList a b
  | obj a, obj b => beqFields a b
  | _, _ => false
/-- Structural equality test on arrays of values. -/
def beqList : List JSVal → List JSVal → Bool
  | [], [] => true
  | x :: xs, y :: ys => beq x y && beqList xs ys
  | _, _ => false
/-- Structural equality test on property lists. -/
def beqFields : List (String × JSVal) → List (String × JSVal) → Bool
  | [], [] => true
  | (k, x) :: xs, (l, y) :: ys => k == l && beq x y && beqFields xs ys
  | _, _ => false
end

mutual
theorem beq_iff : ∀ a b : JSVal, beq a b = true ↔ a = b
  | undefined, b => by cases b <;> simp [beq]
  | null, b => by cases b <;> simp [beq]
  | bool a, b => by cases b <;> simp [beq]
  | num a, b => by cases b <;> simp [beq]
  | str a, b => by cases b <;> simp [beq]
  | arr a, b => by cases b <;> simp [beq, beqList_iff a]
  | obj a, b => by cases b <;> simp [beq, beqFields_iff a]
theorem beqList_iff : ∀ a b : List JSVal, beqList a b = true ↔ a = b
  | [], b => by cases b <;> simp [beqList]
  | x :: xs, b => by cases b <;> simp [beqList, beq_iff x, beqList_iff xs]
theorem beqFields_iff : ∀ a b : List (String × JSVal), beqFields a b = true ↔ a = b
  | [], b => by cases b <;> simp [beqFields]
  | (k, x) :: xs, b => by
    cases b with
    | nil => simp [beqFields]
    | cons hd tl =>
      obtain ⟨l, y⟩ := hd
      simp [beqFields, beq_iff x, beqFields_iff xs, and_assoc]
end

instance : DecidableEq JSVal := fun a b =>
  if h : beq a b = true then isTrue ((beq_iff a b).1 h)
  else isFalse (fun e => h ((beq_iff a b).2 e))

/-- The strict equality operator `a === b`.  Primitives are compared by value;
arrays and objects are compared by reference, and two compound values held in
different places of the store are different references. -/
def strictEq : JSVal → JSVal → Bool
  | undefined, undefined => true
  | null, null => true
  | bool a, bool b => a == b
  | num a, num b => a == b
  | str a, str b => a == b
  | _, _ => false

end JSVal

open JSVal

namespace Obj

/-- Property read `o.k`: the value of the own property, `undefined` if there is
none. -/
def get : Obj → String → JSVal
  | [], _ => undefined
  | (k, v) :: rest, key => if k = key then v else get rest key

/-- Whether `o` has an own property `key`. -/
def has : Obj → String → Bool
  | [], _ => false
  | (k, _) :: rest, key => if k = key then true else has rest key

/-- Property write `o[key] = v` while an object literal is built: an existing
property keeps its position and takes the new value, a new property is added at
the end. -/
def set : Obj → String → JSVal → Obj
  | [], key, v => [(key, v)]
  | (k, w) :: rest, key, v => if k = key then (k, v) :: rest else (k, w) :: set rest key v

/-- The spread `...source` inside an object literal whose properties so far are
`target`: every own property of `source` is written, in order. -/
def spread (target source : Obj) : Obj :=
  source.foldl (fun acc kv => set acc kv.1 kv.2) target

end Obj

/-! ## `String.prototype.trim` -/

/-- The code points `trim` strips: WhiteSpace and LineTerminator of ECMAScript. -/
def isJSWhiteSpace (c : Char) : Bool :=
  let n := c.toNat
  n = 0x09 || n = 0x0A || n = 0x0B || n = 0x0C || n = 0x0D || n = 0x20 ||
  n = 0xA0 || n = 0x1680 || (0x2000 ≤ n && n ≤ 0x200A) ||
  n = 0x2028 || n = 0x2029 || n = 0x202F || n = 0x205F || n = 0x3000 || n = 0xFEFF

/-- The characters of `s.trim()`. -/
def trimChars (cs : List Char) : List Char :=
  ((cs.dropWhile isJSWhiteSpace).reverse.dropWhile isJSWhiteSpace).reverse

/-- The method `s.trim()`. -/
def trim (s : String) : String := ⟨trimChars s.data⟩

/-- Truthiness of a string: every string but the empty one is truthy. -/
def truthyStr (s : String) : Bool := !(s.data.isEmpty)

/-! ## The store (`useCaseStore.js`) -/

/-- The state held by `useCaseStore`. -/
structure State where
  currentCase : JSVal
  agents : List Obj
  timeline : List Obj
  artifacts : List Obj
  messages : List Obj
  isRunning : Bool
  settings : Obj
  uploadedFiles : List Obj
  deriving DecidableEq

/-- The state the store is created with. -/
def initialState : State where
  currentCase := null
  agents := []
  timeline := []
  artifacts := []
  messages := []
  isRunning := false
  settings :=
    [("budget", num 50), ("thoroughness", num 75), ("plainEnglish", bool true),
     ("jurisdiction", str "CA"), ("maxDepth", num 5), ("tokenBudget", num 10000)]
  uploadedFiles := []

/-- The two clock readings one `addMessage` call takes: `Date.now()` and
`new Date().toISOString()`. -/
structure Clock where
  now : Int
  iso : String
  deriving DecidableEq

def setCurrentCase (caseData : JSVal) (s : State) : State :=
  { s with currentCase := caseData }

def setAgents (agents : List Obj) (s : State) : State :=
  { s with agents := agents }

def updateAgent (agentId : JSVal) (updates : Obj) (s : State) : State :=
  { s with agents := s.agents.map fun agent =>
      if strictEq (Obj.get agent "id") agentId then Obj.spread (Obj.spread [] agent) updates
      else agent }

def setTimeline (timeline : List Obj) (s : State) : State :=
  { s with timeline := timeline }

def addTimelineStep (step : Obj) (s : State) : State :=
  { s with timeline := s.timeline ++ [step] }

def updateTimelineStep (stepId : JSVal) (updates : Obj) (s : State) : State :=
  { s with timeline := s.timeline.map fun step =>
      if strictEq (Obj.get step "id") stepId then Obj.spread (Obj.spread [] step) updates
      else step }

def setArtifacts (artifacts : List Obj) (s : State) : State :=
  { s with artifacts := artifacts }

def addArtifact (artifact : Obj) (s : State) : State :=
  { s with artifacts := s.artifacts ++ [artifact] }

def addMessage (clock : Clock) (message : Obj) (s : State) : State :=
  { s with messages := s.messages ++
      [Obj.spread [("id", num clock.now), ("timestamp", str clock.iso)] message] }

def setIsRunning (isRunning : Bool) (s : State) : State :=
  { s with isRunning := isRunning }

def updateSettings (newSettings : Obj) (s : State) : State :=
  { s with settings := Obj.spread (Obj.spread [] s.settings) newSettings }

def addUploadedFile (file : Obj) (s : State) : State :=
  { s with uploadedFiles := s.uploadedFiles ++ [file] }

def removeUploadedFile (fileId : JSVal) (s : State) : State :=
  { s with uploadedFiles := s.uploadedFiles.filter fun f => !strictEq (Obj.get f "id") fileId }

def reset (s : State) : State :=
  { s with
    currentCase := null
    agents := []
    timeline := []
    artifacts := []
    messages := []
    isRunning := false
    uploadedFiles := [] }

/-! ## The backend run-agent call (`api.js`, `agentAPI.runAgent`) -/

/-- The body `agentAPI.runAgent` posts to `/agent`. -/
structure Request where
  user_id : String
  prompt : String
  files : List JSVal
  deriving DecidableEq

/-- What the four fields read off `response.data` evaluate to, for a body
`{ summary?, agents?, timeline?, artifacts? }`: each field is a value of its
contract type, or is absent.  Every field is absent when `response.data` is a
primitive, as is the empty string that stands for an empty body. -/
structure AgentData where
  agents : Option (List Obj)
  timeline : Option (List Obj)
  artifacts : Option (List Obj)
  summary : Option String
  deriving DecidableEq

/-- How the awaited promise of `agentAPI.runAgent` settles: it rejects (network
error, non-2xx status), or resolves with a response.  `data` is `none` when
`response.data` is `null` or `undefined`, so that reading a field of it raises;
it is `some` in every other case, the response with an empty body included. -/
inductive Outcome where
  | rejected
  | resolved (data : Option AgentData)
  deriving DecidableEq

/-- A response with an empty body: `response.data` is the empty string, and
each of `"".agents`, `"".timeline`, `"".artifacts` and `"".summary` is
`undefined`. -/
def emptyBodyResponse : Outcome :=
  Outcome.resolved (some { agents := none, timeline := none, artifacts := none, summary := none })

/-! ## The command pipeline (`ChatComposer.jsx`, `handleSubmit`) -/

/-- The expression `field || []` for a field holding an array when present: an
array is truthy, the empty one too, so only an absent field gives `[]`. -/
def orEmpty (field : Option (List Obj)) : List Obj :=
  match field with
  | some xs => xs
  | none => []

/-- The expression `summary || fallback` for a field holding a string when
present: the fallback is taken when the field is absent and when it is falsy. -/
def orFallback (summary : Option String) (fallback : String) : String :=
  match summary with
  | some text => if truthyStr text then text else fallback
  | none => fallback

def fallbackSummary : String :=
  "I\x27ve analyzed your case and deployed specialized agents to help you."

def errorContent : String :=
  "Sorry, I encountered an error processing your request. Please check your API key and try again."

/-- The argument of the first `addMessage` call of `handleSubmit`. -/
def userMessage (message : String) (uploadedFiles : List Obj) : Obj :=
  [("type", str "user"), ("content", str message),
   ("files", arr (uploadedFiles.map fun f => obj [("name", Obj.get f "name"), ("id", Obj.get f "id")]))]

/-- The argument of `agentAPI.runAgent` in `handleSubmit`. -/
def runAgentRequest (userMessage : String) (uploadedFiles : List Obj) : Request where
  user_id := "default_user"
  prompt := userMessage
  files := uploadedFiles.map fun f => Obj.get f "id"

/-- The argument of `addMessage` on the success path. -/
def assistantMessage (summary : Option String) : Obj :=
  [("type", str "assistant"), ("agent", str "Master Agent"),
   ("content", str (orFallback summary fallbackSummary))]

/-- The argument of `addMessage` in the `catch` block. -/
def systemMessage : Obj :=
  [("type", str "assistant"), ("agent", str "System"), ("content", str errorContent)]

/-- The first statements of `handleSubmit` after the guard: the `addMessage`
call for the user message.  `uploadedFiles` is the list the component read from
the store. -/
def appendUserMessage (clock : Clock) (message : String) (s : State) : State :=
  addMessage clock (userMessage message s.uploadedFiles) s

/-- The part of `handleSubmit` that runs before the `await`: the guard on the
trimmed text, the user message, and `setIsRunning(true)`.  It returns `none`
when the guard returns early, and otherwise the store reached together with the
request that is issued. -/
def submitStart (clock : Clock) (message : String) (s : State) : Option (State × Request) :=
  if !truthyStr (trim message) then none
  else
    let s1 := appendUserMessage clock message s
    let s2 := setIsRunning true s1
    some (s2, runAgentRequest message s.uploadedFiles)

/-- The body of the `try` block after the `await`.  An exception is raised by
the rejected promise, or by reading `response.data.agents` when `data` is
`null` or `undefined`; the error value carries the store reached when it is
raised. -/
def tryBody (clock : Clock) (outcome : Outcome) (s : State) : Except State State :=
  match outcome with
  | Outcome.rejected => Except.error s
  | Outcome.resolved none => Except.error s
  | Outcome.resolved (some data) =>
    let s1 := setAgents (orEmpty data.agents) s
    let s2 := setTimeline (orEmpty data.timeline) s1
    let s3 := setArtifacts (orEmpty data.artifacts) s2
    Except.ok (addMessage clock (assistantMessage data.summary) s3)

/-- The `try` and `catch` blocks of `handleSubmit`, run once the awaited
promise has settled. -/
def settle (clock : Clock) (outcome : Outcome) (s : State) : State :=
  match tryBody clock outcome s with
  | Except.ok s1 => s1
  | Except.error s1 => addMessage clock systemMessage s1

/-- The part of `handleSubmit` that runs once the awaited promise has settled:
`try` body, `catch` block, and the `finally` block. -/
def submitFinish (clock : Clock) (outcome : Outcome) (s : State) : State :=
  setIsRunning false (settle clock outcome s)

/-- What one run of `handleSubmit` leaves behind: the store, the text of the
composer (the component state `message`), and the backend calls issued. -/
structure Run where
  store : State
  composer : String
  requests : List Request
  deriving DecidableEq

/-- The handler `handleSubmit`, run to completion on the store `s` with the
composer text `message`.  `clock1` is read by the first `addMessage` call and
`clock2` by the second; `outcome` is how the backend call settles. -/
def handleSubmit (clock1 clock2 : Clock) (outcome : Outcome) (message : String) (s : State) : Run :=
  match submitStart clock1 message s with
  | none => { store := s, composer := message, requests := [] }
  | some (s1, request) =>
    { store := submitFinish clock2 outcome s1, composer := "", requests := [request] }

/-- The handler `handleStop` of `MasterAgentControls.jsx`. -/
def handleStop (s : State) : State :=
  setIsRunning false s

/-! ## Submissions interleaved with the other consumer actions

The handlers run on a single thread: between the guard and the `await`, and
between the settling of the promise and the end of the `finally` block, no other
handler runs.  While a backend call is outstanding every handler can run,
`handleSubmit` included: the handler has no guard on `isRunning`, and the send
button is disabled only on a blank text. -/

/-- Where the handler that is running stands: no handler is running; or
`handleSubmit` has appended the user message and has yet to call
`setIsRunning(true)`; or the continuation of `handleSubmit` has run its `try`
and `catch` blocks and has yet to run the `finally` block. -/
inductive Phase where
  | idle
  | appended
  | settled
  deriving DecidableEq

/-- The store, the progress of the handler that is running, and the number of
submissions suspended at their `await`: the backend calls outstanding. -/
structure Session where
  store : State
  phase : Phase
  pending : Nat
  deriving DecidableEq

/-- The steps of a submission, and the handlers of the other components that
write to the store. -/
inductive Action where
  | submit (clock : Clock) (message : String)
  | setRunning
  | settle (clock : Clock) (outcome : Outcome)
  | restore
  | stop
  | updateSettings (newSettings : Obj)
  | addUploadedFile (file : Obj)
  | removeUploadedFile (fileId : JSVal)
  deriving DecidableEq

/-- One step; `none` when the action cannot happen in the session.  A handler
starts only when no handler is running; a submission can start while the calls
of earlier submissions are outstanding; `settle` resumes one of the suspended
submissions.  The stop button is rendered only while `isRunning` holds. -/
def step (a : Action) (σ : Session) : Option Session :=
  match a, σ.phase with
  | Action.submit clock message, Phase.idle =>
    if !truthyStr (trim message) then some σ
    else some { σ with store := appendUserMessage clock message σ.store,
                       phase := Phase.appended }
  | Action.setRunning, Phase.appended =>
    some { store := setIsRunning true σ.store, phase := Phase.idle, pending := σ.pending + 1 }
  | Action.settle clock outcome, Phase.idle =>
    if 0 < σ.pending then
      some { store := settle clock outcome σ.store, phase := Phase.settled,
             pending := σ.pending - 1 }
    else none
  | Action.restore, Phase.settled =>
    some { σ with store := setIsRunning false σ.store, phase := Phase.idle }
  | Action.stop, Phase.idle =>
    if σ.store.isRunning then some { σ with store := handleStop σ.store } else none
  | Action.updateSettings newSettings, Phase.idle =>
    some { σ with store := updateSettings newSettings σ.store }
  | Action.addUploadedFile file, Phase.idle =>
    some { σ with store := addUploadedFile file σ.store }
  | Action.removeUploadedFile fileId, Phase.idle =>
    some { σ with store := removeUploadedFile fileId σ.store }
  | _, _ => none

/-- The session after a sequence of actions, `none` if one of them cannot
happen. -/
def runActions : List Action → Session → Option Session
  | [], σ => some σ
  | a :: rest, σ =>
    match step a σ with
    | some σ1 => runActions rest σ1
    | none => none

/-- The session the application starts in. -/
def initialSession : Session where
  store := initialState
  phase := Phase.idle
  pending := 0

/-- A submission has been started and has not yet completed: its handler is
running, or it is suspended at its `await`. -/
def Session.inFlight (σ : Session) : Bool :=
  decide (σ.phase ≠ Phase.idle) || decide (0 < σ.pending)

/-- No submission of the sequence starts while a backend call is outstanding. -/
def sequential : List Action → Session → Bool
  | [], _ => true
  | a :: rest, σ =>
    (match a with
     | Action.submit _ _ => decide (σ.pending = 0)
     | _ => true) &&
    (match step a σ with
     | some σ1 => sequential rest σ1
     | none => true)

/-- What holds along a session without the stop control in which no submission
starts while a call is outstanding: at most one call is outstanding, none while
a handler is running, and `isRunning` is true while one is. -/
def OneAtATime (σ : Session) : Prop :=
  (σ.phase = Phase.idle → σ.pending ≤ 1 ∧ (0 < σ.pending → σ.store.isRunning = true)) ∧
  (σ.phase ≠ Phase.idle → σ.pending = 0)

/-! ## Well-formed objects and sequences of store operations -/

/-- The property names of an object, in property order. -/
def Obj.keys (o : Obj) : List String := o.map Prod.fst

/-- An object has each of its properties once. -/
def Obj.WF (o : Obj) : Prop := (Obj.keys o).Nodup

instance (o : Obj) : Decidable (Obj.WF o) := inferInstanceAs (Decidable (List.Nodup _))

/-- The operations of the store, as calls with their arguments. -/
inductive Op where
  | setCurrentCase (caseData : JSVal)
  | setAgents (agents : List Obj)
  | updateAgent (agentId : JSVal) (updates : Obj)
  | setTimeline (timeline : List Obj)
  | addTimelineStep (step : Obj)
  | updateTimelineStep (stepId : JSVal) (updates : Obj)
  | setArtifacts (artifacts : List Obj)
  | addArtifact (artifact : Obj)
  | addMessage (clock : Clock) (message : Obj)
  | setIsRunning (isRunning : Bool)
  | updateSettings (newSettings : Obj)
  | addUploadedFile (file : Obj)
  | removeUploadedFile (fileId : JSVal)
  | reset
  deriving DecidableEq

/-- The store after one call. -/
def Op.apply : Op → State → State
  | Op.setCurrentCase caseData, s => CaseStore.setCurrentCase caseData s
  | Op.setAgents agents, s => CaseStore.setAgents agents s
  | Op.updateAgent agentId updates, s => CaseStore.updateAgent agentId updates s
  | Op.setTimeline timeline, s => CaseStore.setTimeline timeline s
  | Op.addTimelineStep step, s => CaseStore.addTimelineStep step s
  | Op.updateTimelineStep stepId updates, s => CaseStore.updateTimelineStep stepId updates s
  | Op.setArtifacts artifacts, s => CaseStore.setArtifacts artifacts s
  | Op.addArtifact artifact, s => CaseStore.addArtifact artifact s
  | Op.addMessage clock message, s => CaseStore.addMessage clock message s
  | Op.setIsRunning isRunning, s => CaseStore.setIsRunning isRunning s
  | Op.updateSettings newSettings, s => CaseStore.updateSettings newSettings s
  | Op.addUploadedFile file, s => CaseStore.addUploadedFile file s
  | Op.removeUploadedFile fileId, s => CaseStore.removeUploadedFile fileId s
  | Op.reset, s => CaseStore.reset s

/-- The store after a sequence of calls, in invocation order. -/
def applyOps (ops : List Op) (s : State) : State :=
  ops.foldl (fun acc op => op.apply acc) s

/-- The message an `addMessage` call appends, `none` for any other call. -/
def Op.appendedMessage : Op → Option Obj
  | Op.addMessage clock message =>
    some (Obj.spread [("id", num clock.now), ("timestamp", str clock.iso)] message)
  | _ => none

/-- The step an `addTimelineStep` call appends, `none` for any other call. -/
def Op.appendedStep : Op → Option Obj
  | Op.addTimelineStep step => some step
  | _ => none

/-- Whether the call is `addMessage` or `addTimelineStep`. -/
def Op.isAppend : Op → Bool
  | Op.addMessage _ _ => true
  | Op.addTimelineStep _ => true
  | _ => false

/-- The fields of the store state. -/
inductive Field where
  | currentCase
  | agents
  | timeline
  | artifacts
  | messages
  | isRunning
  | settings
  | uploadedFiles
  deriving DecidableEq

/-- The fields the contract of each operation names as written by it: one
field for every setter, adder and updater, and for `reset` every collection and
flag, settings excepted. -/
def Op.names : Op → List Field
  | Op.setCurrentCase _ => [Field.currentCase]
  | Op.setAgents _ => [Field.agents]
  | Op.updateAgent _ _ => [Field.agents]
  | Op.setTimeline _ => [Field.timeline]
  | Op.addTimelineStep _ => [Field.timeline]
  | Op.updateTimelineStep _ _ => [Field.timeline]
  | Op.setArtifacts _ => [Field.artifacts]
  | Op.addArtifact _ => [Field.artifacts]
  | Op.addMessage _ _ => [Field.messages]
  | Op.setIsRunning _ => [Field.isRunning]
  | Op.updateSettings _ => [Field.settings]
  | Op.addUploadedFile _ => [Field.uploadedFiles]
  | Op.removeUploadedFile _ => [Field.uploadedFiles]
  | Op.reset =>
    [Field.currentCase, Field.agents, Field.timeline, Field.artifacts, Field.messages,
     Field.isRunning, Field.uploadedFiles]

/-! ## The upload pipeline (`FileDropzone.jsx`, `onDrop`) -/

/-- How the awaited promise of `agentAPI.uploadFile` settles: it rejects, or
resolves with a response.  `data` is `none` when `response.data` is `null` or
`undefined`, so that reading a field of it raises; otherwise it holds the
properties of `response.data`, none for a primitive such as the empty string
that stands for an empty body. -/
inductive UploadOutcome where
  | rejected
  | resolved (data : Option Obj)
  deriving DecidableEq

/-- The argument of `addUploadedFile` in `onDrop`. -/
def uploadedRecord (file data : Obj) : Obj :=
  [("id", Obj.get data "file_id"), ("name", Obj.get file "name"), ("size", Obj.get file "size"),
   ("type", Obj.get file "type"), ("extractedText", Obj.get data "extracted_text")]

/-- One iteration of the loop of `onDrop`: the `try` block and the `catch`
block, which only logs.  Reading `response.data.file_id` raises when `data` is
`null` or `undefined`, before `addUploadedFile` is called. -/
def uploadOne (file : Obj) (outcome : UploadOutcome) (s : State) : State :=
  match outcome with
  | UploadOutcome.rejected => s
  | UploadOutcome.resolved none => s
  | UploadOutcome.resolved (some data) => addUploadedFile (uploadedRecord file data) s

/-- What one run of `onDrop` leaves behind: the store, and the files posted to
the backend, in order. -/
structure UploadRun where
  store : State
  posted : List Obj
  deriving DecidableEq

/-- The handler `onDrop` on a batch of accepted files, each with the way its
upload call settles. -/
def onDrop (acceptedFiles : List (Obj × UploadOutcome)) (s : State) : UploadRun :=
  acceptedFiles.foldl
    (fun run fo => { store := uploadOne fo.1 fo.2 run.store, posted := run.posted ++ [fo.1] })
    { store := s, posted := [] }

/-- Whether a value is a primitive: compared by value by `===`. -/
def JSVal.isPrimitive : JSVal → Bool
  | JSVal.arr _ => false
  | JSVal.obj _ => false
  | _ => true

/-! ## The notification broadcaster (`Toaster.jsx`) -/

/-- The module state of `Toaster.jsx`: the counter `toastId`, the queue
`toasts`, and the registry `listeners`.  A listener is the state setter
`setToastList` of one mounted `Toaster`, named by a number. -/
structure Broadcaster where
  toastId : Int
  toasts : List Obj
  listeners : List Nat
  deriving DecidableEq

/-- The module state when the module is loaded. -/
def initialBroadcaster : Broadcaster where
  toastId := 0
  toasts := []
  listeners := []

/-- What a call on the broadcaster leaves behind: the module state, the
listener calls made, in order, each with its argument, and the timers set with
`setTimeout`, each with the id it will remove and its delay. -/
structure Emitted where
  state : Broadcaster
  calls : List (Nat × List Obj)
  timers : List (JSVal × Nat)
  deriving DecidableEq

/-- The statement `listeners.forEach(listener => listener([...toasts]))`. -/
def fanOut (b : Broadcaster) : List (Nat × List Obj) :=
  b.listeners.map fun listener => (listener, b.toasts)

/-- The function `addToast`; `now` is the reading of `Date.now()`. -/
def addToast (now : Int) (toast : Obj) (b : Broadcaster) : Emitted :=
  let id := b.toastId + 1
  let newToast := Obj.set (Obj.spread [("id", num id)] toast) "createdAt" (num now)
  let b1 := { b with toastId := id, toasts := b.toasts ++ [newToast] }
  { state := b1, calls := fanOut b1, timers := [(num id, 5000)] }

def toast.success (now : Int) (message : JSVal) (b : Broadcaster) : Emitted :=
  addToast now [("type", str "success"), ("message", message)] b

def toast.error (now : Int) (message : JSVal) (b : Broadcaster) : Emitted :=
  addToast now [("type", str "error"), ("message", message)] b

def toast.info (now : Int) (message : JSVal) (b : Broadcaster) : Emitted :=
  addToast now [("type", str "info"), ("message", message)] b

/-- The array method `findIndex`, and `indexOf` with the test `x === value`:
the index of the first element passing the test, `none` for the result -1. -/
def findIndex {α : Type} (p : α → Bool) : List α → Option Nat
  | [] => none
  | x :: xs => if p x then some 0 else (findIndex p xs).map (· + 1)

/-- The function `removeToast`, called by the timer of a toast and by its
close button. -/
def removeToast (id : JSVal) (b : Broadcaster) : Emitted :=
  match findIndex (fun t => strictEq (Obj.get t "id") id) b.toasts with
  | some index =>
    let b1 := { b with toasts := b.toasts.eraseIdx index }
    { state := b1, calls := fanOut b1, timers := [] }
  | none => { state := b, calls := [], timers := [] }

/-- The effect of `Toaster`: `listeners.push(setToastList)`. -/
def subscribe (listener : Nat) (b : Broadcaster) : Broadcaster :=
  { b with listeners := b.listeners ++ [listener] }

/-- The cleanup of the effect of `Toaster`: the unsubscribe step. -/
def unsubscribe (listener : Nat) (b : Broadcaster) : Broadcaster :=
  match findIndex (fun l => l == listener) b.listeners with
  | some index => { b with listeners := b.listeners.eraseIdx index }
  | none => b

/-- The id of every toast in the queue is a number the counter has reached. -/
def Broadcaster.idsIssued (b : Broadcaster) : Bool :=
  b.toasts.all fun t =>
    match Obj.get t "id" with
    | JSVal.num n => decide (n ≤ b.toastId)
    | _ => false

/-- What the module keeps true of its state: a `Toaster` is registered at most
once (its effect pushes once per mount and its cleanup runs before the next
mount), the ids of the queue are numbers the counter has reached, and no two
toasts of the queue have the same id. -/
def Broadcaster.Inv (b : Broadcaster) : Prop :=
  b.listeners.Nodup ∧ b.idsIssued = true ∧ (b.toasts.map fun t => Obj.get t "id").Nodup

instance (b : Broadcaster) : Decidable b.Inv := inferInstanceAs (Decidable (_ ∧ _ ∧ _))

/-! ## Identity of agents, timeline steps and artifacts -/

/-- No two elements of the collection have the same value of the property. -/
def uniqueBy (key : String) (xs : List Obj) : Prop :=
  (xs.map fun x => Obj.get x key).Nodup

instance (key : String) (xs : List Obj) : Decidable (uniqueBy key xs) :=
  inferInstanceAs (Decidable (List.Nodup _))

/-- No two agents share an id, no two timeline steps share an id, and no two
artifacts share a path. -/
def State.uniqueIds (s : State) : Prop :=
  uniqueBy "id" s.agents ∧ uniqueBy "id" s.timeline ∧ uniqueBy "path" s.artifacts

instance (s : State) : Decidable s.uniqueIds := inferInstanceAs (Decidable (_ ∧ _ ∧ _))

/-- Unique identities, with every agent and every timeline step an object that
has each property once. -/
def IdsInv (s : State) : Prop :=
  s.uniqueIds ∧ (∀ x ∈ s.agents, Obj.WF x) ∧ (∀ x ∈ s.timeline, Obj.WF x)

/-- A store operation, or one run of the command pipeline. -/
inductive Event where
  | call (op : Op)
  | submit (clock1 clock2 : Clock) (outcome : Outcome) (message : String)
  deriving DecidableEq

/-- The store after the event. -/
def Event.apply : Event → State → State
  | Event.call op, s => op.apply s
  | Event.submit clock1 clock2 outcome message, s =>
    (handleSubmit clock1 clock2 outcome message s).store

/-- The store after a sequence of events. -/
def runEvents (events : List Event) (s : State) : State :=
  events.foldl (fun acc e => e.apply acc) s

/-- Every object of the list has each of its properties once. -/
def allWF (xs : List Obj) : Bool := xs.all fun x => decide (Obj.WF x)

/-- The caller of the operation introduces no duplicate: a list that replaces
a collection has no duplicate identity, an added step or artifact has an
identity not yet in its collection, and an update carries no id. -/
def Op.keepsIds : Op → State → Bool
  | Op.setAgents agents, _ => decide (uniqueBy "id" agents) && allWF agents
  | Op.updateAgent _ updates, _ => !Obj.has updates "id"
  | Op.setTimeline timeline, _ => decide (uniqueBy "id" timeline) && allWF timeline
  | Op.addTimelineStep step, s =>
    decide (Obj.WF step) &&
      decide (Obj.get step "id" ∉ s.timeline.map fun x => Obj.get x "id")
  | Op.updateTimelineStep _ updates, _ => !Obj.has updates "id"
  | Op.setArtifacts artifacts, _ => decide (uniqueBy "path" artifacts)
  | Op.addArtifact artifact, s =>
    decide (Obj.get artifact "path" ∉ s.artifacts.map fun x => Obj.get x "path")
  | _, _ => true

/-- The event introduces no duplicate: for a pipeline run whose response is
applied, the lists of the response have no duplicate identity. -/
def Event.keepsIds : Event → State → Bool
  | Event.call op, s => op.keepsIds s
  | Event.submit _ _ (Outcome.resolved (some data)) message, _ =>
    !truthyStr (trim message) ||
      (decide (uniqueBy "id" (orEmpty data.agents)) && allWF (orEmpty data.agents) &&
       decide (uniqueBy "id" (orEmpty data.timeline)) && allWF (orEmpty data.timeline) &&
       decide (uniqueBy "path" (orEmpty data.artifacts)))
  | Event.submit _ _ _ _, _ => true

/-- Every event of the sequence introduces no duplicate in the store it is
applied to. -/
def allKeepIds : List Event → State → Bool
  | [], _ => true
  | e :: rest, s => e.keepsIds s && allKeepIds rest (e.apply s)

def sampleBroadcaster : Broadcaster where
  toastId := 2
  toasts := [[("id", num 1), ("type", str "info"), ("message", str "uploaded"),
              ("createdAt", num 1700000000000)],
             [("id", num 2), ("type", str "success"), ("message", str "saved"),
              ("createdAt", num 1700000001000)]]
  listeners := [7, 9]

/-! ## Sample inputs -/

def sampleClock1 : Clock := ⟨1700000000000, "2023-11-14T22:13:20.000Z"⟩

def sampleClock2 : Clock := ⟨1700000000950, "2023-11-14T22:13:20.950Z"⟩

/-- A store left by an earlier run, with one staged file. -/
def sampleStore : State where
  currentCase := null
  agents := [[("id", str "old"), ("name", str "Intake"), ("status", str "completed")]]
  timeline := [[("id", str "t0"), ("type", str "ocr"), ("status", str "completed")]]
  artifacts := [[("path", str "/out/old.pdf"), ("name", str "old.pdf"), ("type", str "pdf")]]
  messages := [[("id", num 1699999990000), ("timestamp", str "2023-11-14T22:13:10.000Z"),
                ("type", str "user"), ("content", str "hello"), ("files", arr [])]]
  isRunning := true
  settings := initialState.settings
  uploadedFiles :=
    [[("id", str "f1"), ("name", str "lease.pdf"), ("size", num 1024),
      ("type", str "application/pdf"), ("extractedText", str "LEASE")]]

def sampleData : AgentData where
  agents := some [[("id", str "a1"), ("name", str "Drafter")]]
  timeline := some []
  artifacts := none
  summary := some "done"

/-- A store with two agents and two timeline steps. -/
def sampleRoster : State where
  currentCase := null
  agents := [[("id", str "a1"), ("name", str "Intake"), ("status", str "idle")],
             [("id", str "a2"), ("name", str "Drafter"), ("status", str "idle")]]
  timeline := [[("id", str "t1"), ("title", str "OCR"), ("status", str "pending")],
               [("id", str "t2"), ("title", str "Draft"), ("status", str "pending")]]
  artifacts := []
  messages := []
  isRunning := false
  settings := initialState.settings
  uploadedFiles := []

/-! ## Lemmas on values, trimming and the parts of the pipeline -/

theorem strictEq_eq_true {a b : JSVal} (h : strictEq a b = true) : a = b := by
  cases a <;> cases b <;> simp_all [strictEq]

theorem strictEq_false_of_ne {a b : JSVal} (h : a ≠ b) : strictEq a b = false := by
  cases hs : strictEq a b
  · rfl
  · exact absurd (strictEq_eq_true hs) h

theorem truthyStr_of_ne_empty {t : String} (h : t ≠ "") : truthyStr t = true := by
  cases hd : t.data with
  | nil => exact absurd (String.ext hd) h
  | cons c cs => simp [truthyStr, hd]

theorem trimChars_of_all_whiteSpace {cs : List Char}
    (h : cs.all isJSWhiteSpace = true) : trimChars cs = [] := by
  have hdrop : cs.dropWhile isJSWhiteSpace = [] := by
    rw [List.dropWhile_eq_nil_iff]
    exact fun c hc => List.all_eq_true.mp h c hc
  simp [trimChars, hdrop]

theorem submitStart_of_truthy (clock : Clock) (message : String) (s : State)
    (h : trim message ≠ "") :
    submitStart clock message s =
      some (setIsRunning true (appendUserMessage clock message s),
            runAgentRequest message s.uploadedFiles) := by
  simp [submitStart, truthyStr_of_ne_empty h]

theorem handleSubmit_of_truthy (clock1 clock2 : Clock) (outcome : Outcome) (message : String)
    (s : State) (h : trim message ≠ "") :
    handleSubmit clock1 clock2 outcome message s =
      { store := submitFinish clock2 outcome (setIsRunning true (appendUserMessage clock1 message s)),
        composer := "",
        requests := [runAgentRequest message s.uploadedFiles] } := by
  simp [handleSubmit, submitStart_of_truthy clock1 message s h]

theorem settle_messages (clock : Clock) (outcome : Outcome) (s : State) :
    ∃ a, (settle clock outcome s).messages = s.messages ++ [a] ∧
      Obj.get a "type" = str "assistant" := by
  rcases outcome with _ | _ | data
  · exact ⟨_, rfl, by simp [systemMessage, Obj.spread, Obj.set, Obj.get]⟩
  · exact ⟨_, rfl, by simp [systemMessage, Obj.spread, Obj.set, Obj.get]⟩
  · refine ⟨_, rfl, ?_⟩
    simp [assistantMessage, Obj.spread, Obj.set, Obj.get]

/-! ## The command pipeline -/

/-- C1. Success path: whatever the prior store, once `handleSubmit` has
completed on a text that is non-empty after trimming and a successful response,
each of agents, timeline and artifacts is the response's field when the response
supplies it and the empty sequence when it omits it; the right-hand sides do not
depend on the prior store, so nothing is kept from before the call. -/
theorem handleSubmit_success_collections (clock1 clock2 : Clock) (message : String)
    (data : AgentData) (s : State) (h : trim message ≠ "") :
    (handleSubmit clock1 clock2 (Outcome.resolved (some data)) message s).store.agents
        = data.agents.getD [] ∧
    (handleSubmit clock1 clock2 (Outcome.resolved (some data)) message s).store.timeline
        = data.timeline.getD [] ∧
    (handleSubmit clock1 clock2 (Outcome.resolved (some data)) message s).store.artifacts
        = data.artifacts.getD [] := by
  rw [handleSubmit_of_truthy clock1 clock2 _ message s h]
  refine ⟨?_, ?_, ?_⟩
  · cases hd : data.agents <;> simp [submitFinish, settle, tryBody, setIsRunning, addMessage,
      setArtifacts, setTimeline, setAgents, orEmpty, hd]
  · cases hd : data.timeline <;> simp [submitFinish, settle, tryBody, setIsRunning, addMessage,
      setArtifacts, setTimeline, setAgents, orEmpty, hd]
  · cases hd : data.artifacts <;> simp [submitFinish, settle, tryBody, setIsRunning, addMessage,
      setArtifacts, setTimeline, setAgents, orEmpty, hd]

theorem handleSubmit_success_collections_witness :
    trim "draft a complaint" ≠ "" ∧
    (handleSubmit sampleClock1 sampleClock2 (Outcome.resolved (some sampleData))
        "draft a complaint" sampleStore).store.agents
        = [[("id", str "a1"), ("name", str "Drafter")]] ∧
    (handleSubmit sampleClock1 sampleClock2 (Outcome.resolved (some sampleData))
        "draft a complaint" sampleStore).store.timeline = [] ∧
    (handleSubmit sampleClock1 sampleClock2 (Outcome.resolved (some sampleData))
        "draft a complaint" sampleStore).store.artifacts = [] :=
  ⟨by decide,
   handleSubmit_success_collections sampleClock1 sampleClock2 "draft a complaint" sampleData
     sampleStore (by decide)⟩

/-- C2, the claim as stated fails. A response with an empty body is no
failure for `handleSubmit`: nothing raises, the success path runs, agents,
timeline and artifacts are replaced by empty sequences, and the assistant
message comes from "Master Agent" with the fallback text, not from "System". -/
theorem empty_body_counterexample :
    (handleSubmit sampleClock1 sampleClock2 emptyBodyResponse "draft a complaint"
        sampleStore).store.agents = [] ∧
    sampleStore.agents ≠ [] ∧
    (handleSubmit sampleClock1 sampleClock2 emptyBodyResponse "draft a complaint"
        sampleStore).store.timeline = [] ∧
    sampleStore.timeline ≠ [] ∧
    (handleSubmit sampleClock1 sampleClock2 emptyBodyResponse "draft a complaint"
        sampleStore).store.artifacts = [] ∧
    sampleStore.artifacts ≠ [] ∧
    ((handleSubmit sampleClock1 sampleClock2 emptyBodyResponse "draft a complaint"
        sampleStore).store.messages.getLast?).map
          (fun m => (Obj.get m "agent", Obj.get m "content"))
      = some (str "Master Agent",
          str "I\x27ve analyzed your case and deployed specialized agents to help you.") := by
  decide

/-- C2, amended. Failure path: when the run-agent call rejects, or resolves
with a response whose data is null or undefined, `handleSubmit` on a text that
is non-empty after trimming appends the user message and then exactly one
assistant message, whose agent is "System" and whose content is the fixed error
string, and leaves agents, timeline and artifacts equal to their values before
the call. -/
theorem handleSubmit_failure (clock1 clock2 : Clock) (outcome : Outcome) (message : String)
    (s : State) (h : trim message ≠ "")
    (hfail : outcome = Outcome.rejected ∨ outcome = Outcome.resolved none) :
    (handleSubmit clock1 clock2 outcome message s).store.messages = s.messages ++
      [[("id", num clock1.now), ("timestamp", str clock1.iso), ("type", str "user"),
        ("content", str message),
        ("files", arr (s.uploadedFiles.map fun f =>
          obj [("name", Obj.get f "name"), ("id", Obj.get f "id")]))],
       [("id", num clock2.now), ("timestamp", str clock2.iso), ("type", str "assistant"),
        ("agent", str "System"),
        ("content", str "Sorry, I encountered an error processing your request. Please check your API key and try again.")]] ∧
    (handleSubmit clock1 clock2 outcome message s).store.agents = s.agents ∧
    (handleSubmit clock1 clock2 outcome message s).store.timeline = s.timeline ∧
    (handleSubmit clock1 clock2 outcome message s).store.artifacts = s.artifacts := by
  rw [handleSubmit_of_truthy clock1 clock2 _ message s h]
  rcases hfail with rfl | rfl <;>
    simp [submitFinish, settle, tryBody, setIsRunning, addMessage, appendUserMessage,
      userMessage, systemMessage, errorContent, Obj.spread, Obj.set]

theorem handleSubmit_failure_witness :
    trim "draft a complaint" ≠ "" ∧
    (Outcome.rejected = Outcome.rejected ∨ Outcome.rejected = Outcome.resolved none) ∧
    ((handleSubmit sampleClock1 sampleClock2 Outcome.rejected "draft a complaint"
        sampleStore).store.messages = sampleStore.messages ++
      [[("id", num sampleClock1.now), ("timestamp", str sampleClock1.iso), ("type", str "user"),
        ("content", str "draft a complaint"),
        ("files", arr (sampleStore.uploadedFiles.map fun f =>
          obj [("name", Obj.get f "name"), ("id", Obj.get f "id")]))],
       [("id", num sampleClock2.now), ("timestamp", str sampleClock2.iso),
        ("type", str "assistant"), ("agent", str "System"),
        ("content", str "Sorry, I encountered an error processing your request. Please check your API key and try again.")]] ∧
    (handleSubmit sampleClock1 sampleClock2 Outcome.rejected "draft a complaint"
        sampleStore).store.agents = sampleStore.agents ∧
    (handleSubmit sampleClock1 sampleClock2 Outcome.rejected "draft a complaint"
        sampleStore).store.timeline = sampleStore.timeline ∧
    (handleSubmit sampleClock1 sampleClock2 Outcome.rejected "draft a complaint"
        sampleStore).store.artifacts = sampleStore.artifacts) :=
  ⟨by decide, Or.inl rfl,
   handleSubmit_failure sampleClock1 sampleClock2 Outcome.rejected "draft a complaint"
     sampleStore (by decide) (Or.inl rfl)⟩

/-- C3. One run of `handleSubmit` on a text that is non-empty after trimming
makes the message sequence exactly two entries longer, whatever the backend
outcome: the prior messages are an unchanged prefix, the first new entry has
type user and the second has type assistant. -/
theorem handleSubmit_two_messages (clock1 clock2 : Clock) (outcome : Outcome)
    (message : String) (s : State) (h : trim message ≠ "") :
    ∃ u a, (handleSubmit clock1 clock2 outcome message s).store.messages = s.messages ++ [u, a] ∧
      Obj.get u "type" = str "user" ∧ Obj.get a "type" = str "assistant" ∧
      (handleSubmit clock1 clock2 outcome message s).store.messages.length
        = s.messages.length + 2 := by
  rw [handleSubmit_of_truthy clock1 clock2 _ message s h]
  obtain ⟨a, ha, hta⟩ := settle_messages clock2 outcome
    (setIsRunning true (appendUserMessage clock1 message s))
  have hm : (submitFinish clock2 outcome
      (setIsRunning true (appendUserMessage clock1 message s))).messages
      = s.messages ++ [Obj.spread [("id", num clock1.now), ("timestamp", str clock1.iso)]
          (userMessage message s.uploadedFiles), a] := by
    show (settle clock2 outcome (setIsRunning true (appendUserMessage clock1 message s))).messages
      = _
    rw [ha]
    simp [setIsRunning, appendUserMessage, addMessage]
  refine ⟨_, a, hm, ?_, hta, ?_⟩
  · simp [userMessage, Obj.spread, Obj.set, Obj.get]
  · simp [hm]

theorem handleSubmit_two_messages_witness :
    trim "draft a complaint" ≠ "" ∧
    ∃ u a, (handleSubmit sampleClock1 sampleClock2 (Outcome.resolved (some sampleData))
        "draft a complaint" sampleStore).store.messages = sampleStore.messages ++ [u, a] ∧
      Obj.get u "type" = str "user" ∧ Obj.get a "type" = str "assistant" ∧
      (handleSubmit sampleClock1 sampleClock2 (Outcome.resolved (some sampleData))
        "draft a complaint" sampleStore).store.messages.length
        = sampleStore.messages.length + 2 :=
  ⟨by decide,
   handleSubmit_two_messages sampleClock1 sampleClock2 (Outcome.resolved (some sampleData))
     "draft a complaint" sampleStore (by decide)⟩

/-- C4. On a text that is empty or consists only of whitespace `handleSubmit`
does nothing: the store is the prior store in every field, no message is
appended, the composer keeps its text, and no backend call is issued. -/
theorem handleSubmit_blank (clock1 clock2 : Clock) (outcome : Outcome) (message : String)
    (s : State) (h : message.data.all isJSWhiteSpace = true) :
    handleSubmit clock1 clock2 outcome message s
      = { store := s, composer := message, requests := [] } := by
  simp [handleSubmit, submitStart, trim, truthyStr, trimChars_of_all_whiteSpace h]

theorem handleSubmit_blank_witness :
    " \t\n".data.all isJSWhiteSpace = true ∧
    handleSubmit sampleClock1 sampleClock2 (Outcome.resolved (some sampleData)) " \t\n"
        sampleStore
      = { store := sampleStore, composer := " \t\n", requests := [] } :=
  ⟨by decide,
   handleSubmit_blank sampleClock1 sampleClock2 (Outcome.resolved (some sampleData)) " \t\n"
     sampleStore (by decide)⟩

/-- C5. Whatever the prior store (the prior value of `isRunning` included) and
whatever the backend outcome, `isRunning` is false in the store reached when
`handleSubmit` completes on a text that is non-empty after trimming. -/
theorem handleSubmit_isRunning_false (clock1 clock2 : Clock) (outcome : Outcome)
    (message : String) (s : State) (h : trim message ≠ "") :
    (handleSubmit clock1 clock2 outcome message s).store.isRunning = false := by
  rw [handleSubmit_of_truthy clock1 clock2 _ message s h]
  rfl

theorem handleSubmit_isRunning_false_witness :
    trim "draft a complaint" ≠ "" ∧
    (handleSubmit sampleClock1 sampleClock2 Outcome.rejected "draft a complaint"
        sampleStore).store.isRunning = false :=
  ⟨by decide,
   handleSubmit_isRunning_false sampleClock1 sampleClock2 Outcome.rejected "draft a complaint"
     sampleStore (by decide)⟩

/-! ## The running flag along a session -/

theorem runActions_handleSubmit (clock1 clock2 : Clock) (outcome : Outcome) (message : String)
    (s : State) (n : Nat) (h : trim message ≠ "") :
    runActions [Action.submit clock1 message, Action.setRunning,
        Action.settle clock2 outcome, Action.restore]
        { store := s, phase := Phase.idle, pending := n }
      = some { store := (handleSubmit clock1 clock2 outcome message s).store,
               phase := Phase.idle, pending := n } := by
  rw [handleSubmit_of_truthy clock1 clock2 outcome message s h]
  simp [runActions, step, truthyStr_of_ne_empty h, submitFinish]

theorem step_quiet_not_running (a : Action) (σ σ1 : Session) (h : step a σ = some σ1)
    (hinv : σ.phase = Phase.idle → σ.pending = 0 → σ.store.isRunning = false) :
    σ1.phase = Phase.idle → σ1.pending = 0 → σ1.store.isRunning = false := by
  obtain ⟨store, phase, pending⟩ := σ
  cases a <;> cases phase <;> simp [step] at h
  case submit.idle =>
    split at h <;> cases h
    · exact hinv
    · intro hp
      cases hp
  case setRunning.appended =>
    subst h
    intro _ hp
    simp at hp
  case settle.idle =>
    obtain ⟨_, rfl⟩ := h
    intro hp
    cases hp
  case restore.settled =>
    subst h
    intro _ _
    rfl
  case stop.idle =>
    obtain ⟨_, rfl⟩ := h
    intro _ _
    rfl
  case updateSettings.idle =>
    subst h
    exact hinv
  case addUploadedFile.idle =>
    subst h
    exact hinv
  case removeUploadedFile.idle =>
    subst h
    exact hinv

theorem runActions_quiet_not_running (actions : List Action) (σ0 σ : Session)
    (h : runActions actions σ0 = some σ)
    (hinv : σ0.phase = Phase.idle → σ0.pending = 0 → σ0.store.isRunning = false) :
    σ.phase = Phase.idle → σ.pending = 0 → σ.store.isRunning = false := by
  induction actions generalizing σ0 with
  | nil => simp [runActions] at h; subst h; exact hinv
  | cons a rest ih =>
    simp only [runActions] at h
    cases hs : step a σ0 with
    | none => simp [hs] at h
    | some σ1 =>
      rw [hs] at h
      exact ih σ1 h (step_quiet_not_running a σ0 σ1 hs hinv)

theorem step_oneAtATime (a : Action) (σ σ1 : Session) (h : step a σ = some σ1)
    (ha : a ≠ Action.stop)
    (hsub : ∀ clock message, a = Action.submit clock message → σ.pending = 0)
    (hinv : OneAtATime σ) : OneAtATime σ1 := by
  obtain ⟨store, phase, pending⟩ := σ
  obtain ⟨h1, h2⟩ := hinv
  cases a <;> cases phase <;> simp [step] at h
  case submit.idle =>
    have hp : pending = 0 := hsub _ _ rfl
    subst hp
    split at h <;> cases h
    · exact ⟨h1, h2⟩
    · exact ⟨fun hph => (by cases hph), fun _ => rfl⟩
  case setRunning.appended =>
    have hp : pending = 0 := h2 (by simp)
    subst hp h
    exact ⟨fun _ => ⟨le_refl _, fun _ => rfl⟩, fun hph => absurd rfl hph⟩
  case settle.idle =>
    obtain ⟨hpos, rfl⟩ := h
    have hle : pending ≤ 1 := (h1 rfl).1
    refine ⟨fun hph => (by cases hph), fun _ => ?_⟩
    show pending - 1 = 0
    omega
  case restore.settled =>
    have hp : pending = 0 := h2 (by simp)
    subst hp h
    exact ⟨fun _ => ⟨Nat.zero_le _, fun hpos => absurd hpos (by simp)⟩,
      fun hph => absurd rfl hph⟩
  case stop.idle => exact absurd rfl ha
  case updateSettings.idle =>
    subst h
    exact ⟨h1, h2⟩
  case addUploadedFile.idle =>
    subst h
    exact ⟨h1, h2⟩
  case removeUploadedFile.idle =>
    subst h
    exact ⟨h1, h2⟩

theorem runActions_oneAtATime (actions : List Action) (σ0 σ : Session)
    (h : runActions actions σ0 = some σ) (hstop : Action.stop ∉ actions)
    (hseq : sequential actions σ0 = true) (hinv : OneAtATime σ0) : OneAtATime σ := by
  induction actions generalizing σ0 with
  | nil => simp [runActions] at h; subst h; exact hinv
  | cons a rest ih =>
    simp only [runActions] at h
    simp only [List.mem_cons, not_or] at hstop
    cases hs : step a σ0 with
    | none => simp [hs] at h
    | some σ1 =>
      rw [hs] at h
      simp only [sequential, hs, Bool.and_eq_true] at hseq
      refine ih σ1 h hstop.2 hseq.2
        (step_oneAtATime a σ0 σ1 hs (fun e => hstop.1 e.symm) ?_ hinv)
      intro clock message ha
      subst ha
      simpa using hseq.1

/-- C6, the claim as stated fails. A submission is started from the initial
store and reaches the await with `isRunning` true; the stop control then runs
`setIsRunning(false)`: the backend call is still outstanding and `isRunning` is
false.  The same happens without the stop control when a second submission
starts during the await of the first: the `finally` block of the first sets
`isRunning` false while the call of the second is outstanding. -/
theorem stop_during_await_counterexample :
    (runActions [Action.submit sampleClock1 "draft a complaint", Action.setRunning]
        initialSession).map (fun σ => (σ.pending, σ.inFlight, σ.store.isRunning))
      = some (1, true, true) ∧
    (runActions [Action.submit sampleClock1 "draft a complaint", Action.setRunning, Action.stop]
        initialSession).map (fun σ => (σ.pending, σ.inFlight, σ.store.isRunning))
      = some (1, true, false) ∧
    (runActions [Action.submit sampleClock1 "draft a complaint", Action.setRunning,
                 Action.submit sampleClock2 "and a summons", Action.setRunning,
                 Action.settle sampleClock2 Outcome.rejected, Action.restore]
        initialSession).map (fun σ => (σ.pending, σ.inFlight, σ.store.isRunning))
      = some (1, true, false) := by
  decide

/-- C6, amended. In every session reachable from the initial store by the steps
of submissions, overlapping ones included, and the other handlers, `isRunning`
true implies that a submission has been started and has not completed; and when
the stop control is not among the actions and no submission starts while a call
is outstanding, `isRunning` is true whenever a backend call is outstanding. -/
theorem isRunning_along_session (actions : List Action) (σ : Session)
    (h : runActions actions initialSession = some σ) :
    (σ.store.isRunning = true → σ.inFlight = true) ∧
    (Action.stop ∉ actions → sequential actions initialSession = true →
      σ.phase = Phase.idle → 0 < σ.pending → σ.store.isRunning = true) := by
  constructor
  · intro hr
    by_cases hp : σ.phase = Phase.idle
    · by_cases hn : σ.pending = 0
      · have := runActions_quiet_not_running actions initialSession σ h (fun _ _ => rfl) hp hn
        rw [hr] at this
        cases this
      · simp [Session.inFlight, Nat.pos_of_ne_zero hn]
    · simp [Session.inFlight, hp]
  · intro hstop hseq hp hpos
    have hinv : OneAtATime initialSession :=
      ⟨fun _ => ⟨Nat.zero_le _, fun hpos => absurd hpos (by decide)⟩, fun hne => absurd rfl hne⟩
    exact ((runActions_oneAtATime actions initialSession σ h hstop hseq hinv).1 hp).2 hpos

theorem isRunning_along_session_witness :
    Action.stop ∉ [Action.submit sampleClock1 "draft a complaint", Action.setRunning,
        Action.updateSettings [("maxDepth", num 7)]] ∧
    sequential [Action.submit sampleClock1 "draft a complaint", Action.setRunning,
        Action.updateSettings [("maxDepth", num 7)]] initialSession = true ∧
    runActions [Action.submit sampleClock1 "draft a complaint", Action.setRunning,
        Action.updateSettings [("maxDepth", num 7)]] initialSession
      = some { store := updateSettings [("maxDepth", num 7)]
                 (setIsRunning true (appendUserMessage sampleClock1 "draft a complaint"
                   initialState)),
               phase := Phase.idle, pending := 1 } ∧
    ((updateSettings [("maxDepth", num 7)]
        (setIsRunning true (appendUserMessage sampleClock1 "draft a complaint"
          initialState))).isRunning = true →
      Session.inFlight
        { store := updateSettings [("maxDepth", num 7)]
            (setIsRunning true (appendUserMessage sampleClock1 "draft a complaint"
              initialState)),
          phase := Phase.idle, pending := 1 } = true) ∧
    (Action.stop ∉ [Action.submit sampleClock1 "draft a complaint", Action.setRunning,
        Action.updateSettings [("maxDepth", num 7)]] →
      sequential [Action.submit sampleClock1 "draft a complaint", Action.setRunning,
        Action.updateSettings [("maxDepth", num 7)]] initialSession = true →
      Phase.idle = Phase.idle → 0 < 1 →
      (updateSettings [("maxDepth", num 7)]
        (setIsRunning true (appendUserMessage sampleClock1 "draft a complaint"
          initialState))).isRunning = true) :=
  ⟨by decide, by decide, by decide,
   isRunning_along_session
     [Action.submit sampleClock1 "draft a complaint", Action.setRunning,
      Action.updateSettings [("maxDepth", num 7)]]
     { store := updateSettings [("maxDepth", num 7)]
         (setIsRunning true (appendUserMessage sampleClock1 "draft a complaint" initialState)),
       phase := Phase.idle, pending := 1 }
     (by decide)⟩

/-- C7. On a text that is non-empty after trimming, the store in which the
backend call is issued has the prior messages followed by the user message,
whose content is the submitted text and whose files are the staged files mapped
to name and id in order; whatever the outcome, the final messages begin with
the prior messages followed by that same user message. -/
theorem handleSubmit_user_message (clock1 : Clock) (message : String) (s : State)
    (h : trim message ≠ "") :
    ∃ s1 u,
      u = [("id", num clock1.now), ("timestamp", str clock1.iso), ("type", str "user"),
           ("content", str message),
           ("files", arr (s.uploadedFiles.map fun f =>
              obj [("name", Obj.get f "name"), ("id", Obj.get f "id")]))] ∧
      submitStart clock1 message s = some (s1, runAgentRequest message s.uploadedFiles) ∧
      s1.messages = s.messages ++ [u] ∧
      ∀ (clock2 : Clock) (outcome : Outcome),
        (handleSubmit clock1 clock2 outcome message s).requests
          = [runAgentRequest message s.uploadedFiles] ∧
        (handleSubmit clock1 clock2 outcome message s).store.messages.take
          (s.messages.length + 1) = s.messages ++ [u] := by
  refine ⟨_, _, rfl, submitStart_of_truthy clock1 message s h, ?_, ?_⟩
  · simp [setIsRunning, appendUserMessage, addMessage, userMessage, Obj.spread, Obj.set]
  · intro clock2 outcome
    rw [handleSubmit_of_truthy clock1 clock2 _ message s h]
    obtain ⟨a, ha, -⟩ := settle_messages clock2 outcome
      (setIsRunning true (appendUserMessage clock1 message s))
    refine ⟨rfl, ?_⟩
    show (settle clock2 outcome
      (setIsRunning true (appendUserMessage clock1 message s))).messages.take _ = _
    rw [ha]
    simp [setIsRunning, appendUserMessage, addMessage, userMessage, Obj.spread, Obj.set,
      List.take_append_eq_append_take]

theorem handleSubmit_user_message_witness :
    trim "draft a complaint" ≠ "" ∧
    ∃ s1 u,
      u = [("id", num sampleClock1.now), ("timestamp", str sampleClock1.iso),
           ("type", str "user"), ("content", str "draft a complaint"),
           ("files", arr (sampleStore.uploadedFiles.map fun f =>
              obj [("name", Obj.get f "name"), ("id", Obj.get f "id")]))] ∧
      submitStart sampleClock1 "draft a complaint" sampleStore
        = some (s1, runAgentRequest "draft a complaint" sampleStore.uploadedFiles) ∧
      s1.messages = sampleStore.messages ++ [u] ∧
      ∀ (clock2 : Clock) (outcome : Outcome),
        (handleSubmit sampleClock1 clock2 outcome "draft a complaint" sampleStore).requests
          = [runAgentRequest "draft a complaint" sampleStore.uploadedFiles] ∧
        (handleSubmit sampleClock1 clock2 outcome "draft a complaint"
          sampleStore).store.messages.take (sampleStore.messages.length + 1)
          = sampleStore.messages ++ [u] :=
  ⟨by decide,
   handleSubmit_user_message sampleClock1 "draft a complaint" sampleStore (by decide)⟩

/-- C8, the claim as stated fails. A successful response whose summary is the
empty string: the appended assistant message carries the fallback string, not
the summary. -/
theorem handleSubmit_empty_summary_counterexample :
    ((handleSubmit sampleClock1 sampleClock2
        (Outcome.resolved (some { sampleData with summary := some "" }))
        "draft a complaint" sampleStore).store.messages.getLast?).map
          (fun m => Obj.get m "content")
      = some (str "I\x27ve analyzed your case and deployed specialized agents to help you.") ∧
    ((handleSubmit sampleClock1 sampleClock2
        (Outcome.resolved (some { sampleData with summary := some "" }))
        "draft a complaint" sampleStore).store.messages.getLast?).map
          (fun m => Obj.get m "content")
      ≠ some (str "") := by
  decide

/-- C8, amended. On the success path the last message is the appended
assistant message; its agent is "Master Agent"; its content is the response's
summary whenever the summary is a non-empty string, and the fixed fallback
string when the summary is absent or is the empty string. -/
theorem handleSubmit_success_assistant_message (clock1 clock2 : Clock) (message : String)
    (data : AgentData) (s : State) (h : trim message ≠ "") :
    ∃ a, (handleSubmit clock1 clock2 (Outcome.resolved (some data)) message
            s).store.messages.getLast? = some a ∧
      Obj.get a "type" = str "assistant" ∧
      Obj.get a "agent" = str "Master Agent" ∧
      (∀ text, data.summary = some text → text ≠ "" → Obj.get a "content" = str text) ∧
      (data.summary = none ∨ data.summary = some "" →
        Obj.get a "content"
          = str "I\x27ve analyzed your case and deployed specialized agents to help you.") := by
  rw [handleSubmit_of_truthy clock1 clock2 _ message s h]
  refine ⟨Obj.spread [("id", num clock2.now), ("timestamp", str clock2.iso)]
    (assistantMessage data.summary), ?_, ?_, ?_, ?_, ?_⟩
  · simp [submitFinish, settle, tryBody, setIsRunning, addMessage]
  · simp [assistantMessage, Obj.spread, Obj.set, Obj.get]
  · simp [assistantMessage, Obj.spread, Obj.set, Obj.get]
  · intro text ht hne
    simp [assistantMessage, Obj.spread, Obj.set, Obj.get, orFallback, ht,
      truthyStr_of_ne_empty hne]
  · rintro (hs | hs) <;>
      simp [assistantMessage, Obj.spread, Obj.set, Obj.get, orFallback, hs, truthyStr,
        fallbackSummary]

theorem handleSubmit_success_assistant_message_witness :
    trim "draft a complaint" ≠ "" ∧
    ∃ a, (handleSubmit sampleClock1 sampleClock2 (Outcome.resolved (some sampleData))
            "draft a complaint" sampleStore).store.messages.getLast? = some a ∧
      Obj.get a "type" = str "assistant" ∧
      Obj.get a "agent" = str "Master Agent" ∧
      (∀ text, sampleData.summary = some text → text ≠ "" → Obj.get a "content" = str text) ∧
      (sampleData.summary = none ∨ sampleData.summary = some "" →
        Obj.get a "content"
          = str "I\x27ve analyzed your case and deployed specialized agents to help you.") :=
  ⟨by decide,
   handleSubmit_success_assistant_message sampleClock1 sampleClock2 "draft a complaint"
     sampleData sampleStore (by decide)⟩

/-! ## The store operations -/

/-- C9. When no agent of the collection has the given id, `updateAgent` leaves
the agents collection as it was: the same elements in the same order, none
inserted. -/
theorem updateAgent_absent_id (agentId : JSVal) (updates : Obj) (s : State)
    (h : ∀ agent ∈ s.agents, Obj.get agent "id" ≠ agentId) :
    (updateAgent agentId updates s).agents = s.agents ∧
    (updateAgent agentId updates s).agents.length = s.agents.length := by
  have hmap : (updateAgent agentId updates s).agents = s.agents := by
    simp only [updateAgent]
    conv_rhs => rw [← List.map_id s.agents]
    apply List.map_congr_left
    intro agent hagent
    simp [strictEq_false_of_ne (h agent hagent)]
  exact ⟨hmap, by rw [hmap]⟩

theorem updateAgent_absent_id_witness :
    (∀ agent ∈ sampleStore.agents, Obj.get agent "id" ≠ str "a9") ∧
    (updateAgent (str "a9") [("status", str "running")] sampleStore).agents
      = sampleStore.agents ∧
    (updateAgent (str "a9") [("status", str "running")] sampleStore).agents.length
      = sampleStore.agents.length :=
  ⟨by decide,
   updateAgent_absent_id (str "a9") [("status", str "running")] sampleStore (by decide)⟩

/-- C10. After `reset` the fields agents, timeline, artifacts, messages and
uploadedFiles are empty, currentCase is null and isRunning is false, while
settings is exactly its value before the reset. -/
theorem reset_clears_all_but_settings (s : State) :
    (reset s).agents = [] ∧ (reset s).timeline = [] ∧ (reset s).artifacts = [] ∧
    (reset s).messages = [] ∧ (reset s).uploadedFiles = [] ∧
    (reset s).currentCase = null ∧ (reset s).isRunning = false ∧
    (reset s).settings = s.settings :=
  ⟨rfl, rfl, rfl, rfl, rfl, rfl, rfl, rfl⟩

/-! ## Lemmas on objects -/

theorem Obj.has_set (o : Obj) (k k1 : String) (v : JSVal) :
    Obj.has (Obj.set o k v) k1 = (decide (k = k1) || Obj.has o k1) := by
  induction o with
  | nil => simp [Obj.set, Obj.has]
  | cons hd tl ih =>
    obtain ⟨k0, w⟩ := hd
    by_cases h0 : k0 = k
    · subst h0
      by_cases h1 : k0 = k1 <;> simp [Obj.set, Obj.has, h1]
    · by_cases h1 : k0 = k1
      · subst h1
        simp [Obj.set, Obj.has, h0]
      · simp [Obj.set, Obj.has, h0, h1, ih]

theorem Obj.get_set (o : Obj) (k k1 : String) (v : JSVal) :
    Obj.get (Obj.set o k v) k1 = if k = k1 then v else Obj.get o k1 := by
  induction o with
  | nil => simp [Obj.set, Obj.get]
  | cons hd tl ih =>
    obtain ⟨k0, w⟩ := hd
    by_cases h0 : k0 = k
    · subst h0
      by_cases h1 : k0 = k1 <;> simp [Obj.set, Obj.get, h1]
    · by_cases h1 : k0 = k1
      · subst h1
        simp [Obj.set, Obj.get, h0, Ne.symm h0]
      · simp [Obj.set, Obj.get, h0, h1, ih]

theorem Obj.has_eq_true_iff (o : Obj) (k : String) : Obj.has o k = true ↔ k ∈ Obj.keys o := by
  induction o with
  | nil => simp [Obj.has, Obj.keys]
  | cons hd tl ih =>
    obtain ⟨k0, w⟩ := hd
    by_cases h0 : k0 = k
    · simp [Obj.has, Obj.keys, h0]
    · simp only [Obj.keys] at ih
      simp [Obj.has, Obj.keys, h0, ih, Ne.symm h0]

theorem Obj.set_of_not_has (o : Obj) (k : String) (v : JSVal) (h : Obj.has o k = false) :
    Obj.set o k v = o ++ [(k, v)] := by
  induction o with
  | nil => simp [Obj.set]
  | cons hd tl ih =>
    obtain ⟨k0, w⟩ := hd
    by_cases h0 : k0 = k
    · simp [Obj.has, h0] at h
    · simp [Obj.has, h0] at h
      simp [Obj.set, h0, ih h]

theorem Obj.set_of_get (o : Obj) (k : String) (v : JSVal) (hh : Obj.has o k = true)
    (hg : Obj.get o k = v) : Obj.set o k v = o := by
  induction o with
  | nil => simp [Obj.has] at hh
  | cons hd tl ih =>
    obtain ⟨k0, w⟩ := hd
    by_cases h0 : k0 = k
    · simp [Obj.get, h0] at hg
      simp [Obj.set, h0, hg]
    · simp [Obj.has, h0] at hh
      simp [Obj.get, h0] at hg
      simp [Obj.set, h0, ih hh hg]

theorem Obj.keys_set (o : Obj) (k : String) (v : JSVal) :
    Obj.keys (Obj.set o k v) = if Obj.has o k then Obj.keys o else Obj.keys o ++ [k] := by
  induction o with
  | nil => simp [Obj.set, Obj.has, Obj.keys]
  | cons hd tl ih =>
    obtain ⟨k0, w⟩ := hd
    by_cases h0 : k0 = k
    · simp [Obj.set, Obj.has, Obj.keys, h0]
    · simp only [Obj.keys] at ih
      simp only [Obj.set, Obj.has, Obj.keys, h0, if_false, List.map_cons, ih]
      split <;> simp

theorem Obj.wf_set (o : Obj) (k : String) (v : JSVal) (h : Obj.WF o) :
    Obj.WF (Obj.set o k v) := by
  unfold Obj.WF at *
  rw [Obj.keys_set]
  cases hk : Obj.has o k
  · have hnot : k ∉ Obj.keys o := by
      intro hmem
      rw [(Obj.has_eq_true_iff o k).2 hmem] at hk
      cases hk
    simp only [Bool.false_eq_true, if_false]
    exact List.Nodup.append h (List.nodup_singleton k) (by simpa using hnot)
  · simpa using h

theorem Obj.wf_spread (t src : Obj) (h : Obj.WF t) : Obj.WF (Obj.spread t src) := by
  induction src generalizing t with
  | nil => simpa [Obj.spread] using h
  | cons hd tl ih =>
    simp only [Obj.spread, List.foldl_cons]
    exact ih _ (Obj.wf_set t hd.1 hd.2 h)

theorem Obj.has_spread (t src : Obj) (k : String) :
    Obj.has (Obj.spread t src) k = (Obj.has t k || Obj.has src k) := by
  induction src generalizing t with
  | nil => simp [Obj.spread, Obj.has]
  | cons hd tl ih =>
    obtain ⟨k0, w⟩ := hd
    have := ih (Obj.set t k0 w)
    simp only [Obj.spread, List.foldl_cons] at this ⊢
    rw [this, Obj.has_set]
    by_cases h0 : k0 = k <;> simp [Obj.has, h0]

theorem Obj.get_spread_of_not_has (t src : Obj) (k : String) (h : Obj.has src k = false) :
    Obj.get (Obj.spread t src) k = Obj.get t k := by
  induction src generalizing t with
  | nil => simp [Obj.spread]
  | cons hd tl ih =>
    obtain ⟨k0, w⟩ := hd
    by_cases h0 : k0 = k
    · simp [Obj.has, h0] at h
    · simp [Obj.has, h0] at h
      have := ih (Obj.set t k0 w) h
      simp only [Obj.spread, List.foldl_cons] at this ⊢
      rw [this, Obj.get_set]
      simp [h0]

theorem Obj.get_spread_of_has (t src : Obj) (k : String) (hwf : Obj.WF src)
    (h : Obj.has src k = true) : Obj.get (Obj.spread t src) k = Obj.get src k := by
  induction src generalizing t with
  | nil => simp [Obj.has] at h
  | cons hd tl ih =>
    obtain ⟨k0, w⟩ := hd
    have hwf' : k0 ∉ Obj.keys tl ∧ Obj.WF tl := by
      simpa [Obj.WF, Obj.keys] using hwf
    by_cases h0 : k0 = k
    · subst h0
      have hno : Obj.has tl k0 = false := by
        cases hk : Obj.has tl k0
        · rfl
        · exact absurd ((Obj.has_eq_true_iff tl k0).1 hk) hwf'.1
      have := Obj.get_spread_of_not_has (Obj.set t k0 w) tl k0 hno
      simp only [Obj.spread, List.foldl_cons] at this ⊢
      rw [this, Obj.get_set]
      simp [Obj.get]
    · simp [Obj.has, h0] at h
      have := ih (Obj.set t k0 w) hwf'.2 h
      simp only [Obj.spread, List.foldl_cons] at this ⊢
      rw [this]
      simp [Obj.get, h0]

theorem Obj.spread_append_of_wf (t o : Obj) (h : Obj.WF (t ++ o)) : Obj.spread t o = t ++ o := by
  induction o generalizing t with
  | nil => simp [Obj.spread]
  | cons hd tl ih =>
    obtain ⟨k0, w⟩ := hd
    have hno : Obj.has t k0 = false := by
      cases hk : Obj.has t k0
      · rfl
      · have hmem := (Obj.has_eq_true_iff t k0).1 hk
        simp only [Obj.WF, Obj.keys, List.map_append, List.map_cons] at h
        have := (List.nodup_append.1 h).2.2
        exact absurd (this hmem (List.mem_cons_self _ _)) (by simp)
    have hstep : Obj.set t k0 w = t ++ [(k0, w)] := Obj.set_of_not_has t k0 w hno
    have := ih (t ++ [(k0, w)]) (by simpa using h)
    simp only [Obj.spread, List.foldl_cons] at this ⊢
    rw [hstep, this]
    simp

theorem Obj.spread_nil_of_wf (o : Obj) (h : Obj.WF o) : Obj.spread [] o = o := by
  simpa using Obj.spread_append_of_wf [] o (by simpa using h)

theorem Obj.get_of_mem_wf (o : Obj) (k : String) (v : JSVal) (hwf : Obj.WF o)
    (hm : (k, v) ∈ o) : Obj.has o k = true ∧ Obj.get o k = v := by
  induction o with
  | nil => simp at hm
  | cons hd tl ih =>
    obtain ⟨k0, w⟩ := hd
    have hwf' : k0 ∉ Obj.keys tl ∧ Obj.WF tl := by
      simpa [Obj.WF, Obj.keys] using hwf
    rcases List.mem_cons.1 hm with heq | htl
    · cases heq
      simp [Obj.has, Obj.get]
    · have hk : k ∈ Obj.keys tl := List.mem_map.2 ⟨(k, v), htl, rfl⟩
      have h0 : k0 ≠ k := fun e => hwf'.1 (e ▸ hk)
      have := ih hwf'.2 htl
      simp [Obj.has, Obj.get, h0, this]

theorem Obj.spread_of_agree (r src : Obj)
    (h : ∀ kv ∈ src, Obj.has r kv.1 = true ∧ Obj.get r kv.1 = kv.2) :
    Obj.spread r src = r := by
  induction src with
  | nil => simp [Obj.spread]
  | cons hd tl ih =>
    have h1 := h hd (List.mem_cons_self _ _)
    have := ih (fun kv hkv => h kv (List.mem_cons_of_mem _ hkv))
    simp only [Obj.spread, List.foldl_cons] at this ⊢
    rw [Obj.set_of_get r hd.1 hd.2 h1.1 h1.2, this]

/-! ## Appends, merges and frames of the store operations -/

theorem applyOps_cons (op : Op) (ops : List Op) (s : State) :
    applyOps (op :: ops) s = applyOps ops (op.apply s) := rfl

/-- C11. After any finite sequence of `addMessage` and `addTimelineStep`
calls, interleaved in any way, the messages are the initial messages followed by
one message per `addMessage` call in invocation order, and the timeline is the
initial timeline followed by the added steps in invocation order. -/
theorem appends_in_invocation_order (ops : List Op) (s : State)
    (h : ∀ op ∈ ops, op.isAppend = true) :
    (applyOps ops s).messages = s.messages ++ ops.filterMap Op.appendedMessage ∧
    (applyOps ops s).timeline = s.timeline ++ ops.filterMap Op.appendedStep := by
  induction ops generalizing s with
  | nil => simp [applyOps]
  | cons op rest ih =>
    have hrest := ih (op.apply s) (fun o ho => h o (List.mem_cons_of_mem _ ho))
    have hop := h op (List.mem_cons_self _ _)
    rw [applyOps_cons, hrest.1, hrest.2]
    cases op <;> simp [Op.isAppend] at hop <;>
      simp [Op.apply, Op.appendedMessage, Op.appendedStep, addMessage, addTimelineStep]

theorem appends_in_invocation_order_witness :
    (∀ op ∈ [Op.addMessage sampleClock1 [("type", str "user"), ("content", str "hello")],
             Op.addTimelineStep [("id", str "t1")],
             Op.addMessage sampleClock2 [("type", str "assistant"), ("content", str "hi")],
             Op.addTimelineStep [("id", str "t2")]], op.isAppend = true) ∧
    (applyOps [Op.addMessage sampleClock1 [("type", str "user"), ("content", str "hello")],
               Op.addTimelineStep [("id", str "t1")],
               Op.addMessage sampleClock2 [("type", str "assistant"), ("content", str "hi")],
               Op.addTimelineStep [("id", str "t2")]] sampleStore).messages
      = sampleStore.messages ++
        [Op.addMessage sampleClock1 [("type", str "user"), ("content", str "hello")],
         Op.addTimelineStep [("id", str "t1")],
         Op.addMessage sampleClock2 [("type", str "assistant"), ("content", str "hi")],
         Op.addTimelineStep [("id", str "t2")]].filterMap Op.appendedMessage ∧
    (applyOps [Op.addMessage sampleClock1 [("type", str "user"), ("content", str "hello")],
               Op.addTimelineStep [("id", str "t1")],
               Op.addMessage sampleClock2 [("type", str "assistant"), ("content", str "hi")],
               Op.addTimelineStep [("id", str "t2")]] sampleStore).timeline
      = sampleStore.timeline ++
        [Op.addMessage sampleClock1 [("type", str "user"), ("content", str "hello")],
         Op.addTimelineStep [("id", str "t1")],
         Op.addMessage sampleClock2 [("type", str "assistant"), ("content", str "hi")],
         Op.addTimelineStep [("id", str "t2")]].filterMap Op.appendedStep :=
  ⟨by decide, appends_in_invocation_order _ sampleStore (by decide)⟩

/-- C12, the claim as stated fails. The argument of `addMessage` carries an id
and a timestamp of its own: the appended message has those, not the clock
reading and its ISO rendering. -/
theorem addMessage_id_override_counterexample :
    ((addMessage sampleClock1
        [("id", str "custom"), ("timestamp", str "yesterday"), ("type", str "user"),
         ("content", str "hello")] sampleStore).messages.getLast?).map
          (fun m => (Obj.get m "id", Obj.get m "timestamp"))
      = some (str "custom", str "yesterday") ∧
    ((addMessage sampleClock1
        [("id", str "custom"), ("timestamp", str "yesterday"), ("type", str "user"),
         ("content", str "hello")] sampleStore).messages.getLast?).map
          (fun m => (Obj.get m "id", Obj.get m "timestamp"))
      ≠ some (num sampleClock1.now, str sampleClock1.iso) := by
  decide

/-- C12, amended. `addMessage` leaves the prior messages as they are and
appends exactly one message; the new message has every field of the argument
with the argument's value; its id is the clock reading when the argument has no
id field, and its timestamp is the ISO rendering when the argument has no
timestamp field. -/
theorem addMessage_appends_one (clock : Clock) (message : Obj) (s : State)
    (hwf : Obj.WF message) :
    ∃ m, (addMessage clock message s).messages = s.messages ++ [m] ∧
      (∀ k, Obj.has message k = true → Obj.get m k = Obj.get message k) ∧
      (Obj.has message "id" = false → Obj.get m "id" = num clock.now) ∧
      (Obj.has message "timestamp" = false → Obj.get m "timestamp" = str clock.iso) := by
  refine ⟨_, rfl, ?_, ?_, ?_⟩
  · intro k hk
    exact Obj.get_spread_of_has _ message k hwf hk
  · intro hk
    rw [Obj.get_spread_of_not_has _ message "id" hk]
    simp [Obj.get]
  · intro hk
    rw [Obj.get_spread_of_not_has _ message "timestamp" hk]
    simp [Obj.get]

theorem addMessage_appends_one_witness :
    Obj.WF [("type", str "user"), ("content", str "hello")] ∧
    ∃ m, (addMessage sampleClock1 [("type", str "user"), ("content", str "hello")]
            sampleStore).messages = sampleStore.messages ++ [m] ∧
      (∀ k, Obj.has [("type", str "user"), ("content", str "hello")] k = true →
        Obj.get m k = Obj.get [("type", str "user"), ("content", str "hello")] k) ∧
      (Obj.has [("type", str "user"), ("content", str "hello")] "id" = false →
        Obj.get m "id" = num sampleClock1.now) ∧
      (Obj.has [("type", str "user"), ("content", str "hello")] "timestamp" = false →
        Obj.get m "timestamp" = str sampleClock1.iso) :=
  ⟨by decide,
   addMessage_appends_one sampleClock1 [("type", str "user"), ("content", str "hello")]
     sampleStore (by decide)⟩

/-- C13. `updateSettings` merges shallowly: each field of the argument has the
argument's value in the new settings, every other field is present exactly when
it was before and keeps its prior value, the empty argument leaves the settings
unchanged, and applying the same argument twice gives the same store as
applying it once. -/
theorem updateSettings_shallow_merge (newSettings : Obj) (s : State)
    (hs : Obj.WF s.settings) (hn : Obj.WF newSettings) :
    (∀ k, Obj.has newSettings k = true →
      Obj.get (updateSettings newSettings s).settings k = Obj.get newSettings k) ∧
    (∀ k, Obj.has newSettings k = false →
      Obj.get (updateSettings newSettings s).settings k = Obj.get s.settings k ∧
      Obj.has (updateSettings newSettings s).settings k = Obj.has s.settings k) ∧
    updateSettings [] s = s ∧
    updateSettings newSettings (updateSettings newSettings s) = updateSettings newSettings s := by
  have hnil : Obj.spread [] s.settings = s.settings := Obj.spread_nil_of_wf _ hs
  refine ⟨?_, ?_, ?_, ?_⟩
  · intro k hk
    exact Obj.get_spread_of_has _ newSettings k hn hk
  · intro k hk
    constructor
    · simp only [updateSettings]
      rw [Obj.get_spread_of_not_has _ newSettings k hk, hnil]
    · simp only [updateSettings]
      rw [Obj.has_spread, hk, hnil]
      simp
  · have hempty : Obj.spread (Obj.spread [] s.settings) [] = s.settings := by
      rw [hnil]
      rfl
    simp only [updateSettings, hempty]
  · have hwf : Obj.WF (Obj.spread s.settings newSettings) := Obj.wf_spread _ _ hs
    have hagree : Obj.spread (Obj.spread s.settings newSettings) newSettings
        = Obj.spread s.settings newSettings := by
      apply Obj.spread_of_agree
      intro kv hkv
      have hmem := Obj.get_of_mem_wf newSettings kv.1 kv.2 hn hkv
      refine ⟨?_, ?_⟩
      · rw [Obj.has_spread, hmem.1]
        simp
      · rw [Obj.get_spread_of_has _ newSettings kv.1 hn hmem.1, hmem.2]
    simp only [updateSettings, hnil, Obj.spread_nil_of_wf _ hwf, hagree]

theorem updateSettings_shallow_merge_witness :
    Obj.WF initialState.settings ∧ Obj.WF [("maxDepth", num 7), ("locale", str "en")] ∧
    (∀ k, Obj.has [("maxDepth", num 7), ("locale", str "en")] k = true →
      Obj.get (updateSettings [("maxDepth", num 7), ("locale", str "en")]
        initialState).settings k
        = Obj.get [("maxDepth", num 7), ("locale", str "en")] k) ∧
    (∀ k, Obj.has [("maxDepth", num 7), ("locale", str "en")] k = false →
      Obj.get (updateSettings [("maxDepth", num 7), ("locale", str "en")]
        initialState).settings k = Obj.get initialState.settings k ∧
      Obj.has (updateSettings [("maxDepth", num 7), ("locale", str "en")]
        initialState).settings k = Obj.has initialState.settings k) ∧
    updateSettings [] initialState = initialState ∧
    updateSettings [("maxDepth", num 7), ("locale", str "en")]
        (updateSettings [("maxDepth", num 7), ("locale", str "en")] initialState)
      = updateSettings [("maxDepth", num 7), ("locale", str "en")] initialState :=
  ⟨by decide, by decide,
   updateSettings_shallow_merge [("maxDepth", num 7), ("locale", str "en")] initialState
     (by decide) (by decide)⟩

/-- C14. Every store operation leaves each field its contract does not name
equal to its prior value; `setIsRunning` changes nothing but `isRunning`; and
every operation other than `updateSettings`, `reset` included, leaves
`settings` as it was. -/
theorem store_operations_frame (op : Op) (s : State) :
    (Field.currentCase ∉ op.names → (op.apply s).currentCase = s.currentCase) ∧
    (Field.agents ∉ op.names → (op.apply s).agents = s.agents) ∧
    (Field.timeline ∉ op.names → (op.apply s).timeline = s.timeline) ∧
    (Field.artifacts ∉ op.names → (op.apply s).artifacts = s.artifacts) ∧
    (Field.messages ∉ op.names → (op.apply s).messages = s.messages) ∧
    (Field.isRunning ∉ op.names → (op.apply s).isRunning = s.isRunning) ∧
    (Field.settings ∉ op.names → (op.apply s).settings = s.settings) ∧
    (Field.uploadedFiles ∉ op.names → (op.apply s).uploadedFiles = s.uploadedFiles) ∧
    (∀ b, setIsRunning b s = { s with isRunning := b }) ∧
    ((∀ newSettings, op ≠ Op.updateSettings newSettings) →
      (op.apply s).settings = s.settings) := by
  refine ⟨?_, ?_, ?_, ?_, ?_, ?_, ?_, ?_, fun _ => rfl, ?_⟩
  all_goals
    cases op <;>
    simp [Op.names, Op.apply, setCurrentCase, setAgents, updateAgent, setTimeline,
      addTimelineStep, updateTimelineStep, setArtifacts, addArtifact, addMessage,
      setIsRunning, updateSettings, addUploadedFile, removeUploadedFile, reset]

/-! ## The upload pipeline and the staged files -/

theorem onDrop_fold (acceptedFiles : List (Obj × UploadOutcome)) (run : UploadRun) :
    (acceptedFiles.foldl
      (fun run fo => ({ store := uploadOne fo.1 fo.2 run.store,
                        posted := run.posted ++ [fo.1] } : UploadRun)) run).store.uploadedFiles
      = run.store.uploadedFiles ++ acceptedFiles.filterMap (fun fo =>
          match fo.2 with
          | UploadOutcome.resolved (some data) => some (uploadedRecord fo.1 data)
          | _ => none) ∧
    (acceptedFiles.foldl
      (fun run fo => ({ store := uploadOne fo.1 fo.2 run.store,
                        posted := run.posted ++ [fo.1] } : UploadRun)) run).posted
      = run.posted ++ acceptedFiles.map Prod.fst := by
  induction acceptedFiles generalizing run with
  | nil => simp
  | cons fo rest ih =>
    obtain ⟨file, outcome⟩ := fo
    simp only [List.foldl_cons]
    rw [(ih _).1, (ih _).2]
    rcases outcome with _ | _ | data <;> simp [uploadOne, addUploadedFile]

/-- C15. After `onDrop` on a batch of files, each with an arbitrary outcome of
its upload call, `uploadedFiles` is the prior list followed by one record per
successfully uploaded file, in batch order; a record has the backend's file_id
as id, the backend's extracted_text as extractedText, and the file's own name,
size and type; a failed file contributes no record, and every file of the batch
is posted, whatever happened to the files before it. -/
theorem onDrop_appends_successes (acceptedFiles : List (Obj × UploadOutcome)) (s : State) :
    (onDrop acceptedFiles s).store.uploadedFiles
      = s.uploadedFiles ++ acceptedFiles.filterMap (fun fo =>
          match fo.2 with
          | UploadOutcome.resolved (some data) =>
            some [("id", Obj.get data "file_id"), ("name", Obj.get fo.1 "name"),
                  ("size", Obj.get fo.1 "size"), ("type", Obj.get fo.1 "type"),
                  ("extractedText", Obj.get data "extracted_text")]
          | _ => none) ∧
    (onDrop acceptedFiles s).posted = acceptedFiles.map Prod.fst := by
  have h := onDrop_fold acceptedFiles { store := s, posted := [] }
  exact ⟨h.1, by simpa using h.2⟩

theorem strictEq_self_of_primitive {a : JSVal} (h : a.isPrimitive = true) :
    strictEq a a = true := by
  cases a <;> simp_all [strictEq, JSVal.isPrimitive]

/-- C16. `removeUploadedFile` leaves no staged file with the given id, keeps
every file with a different id as it was and in the same relative order, is the
identity when no staged file has the id, and applied twice gives what it gives
applied once.  A file has the id when its id is `===` to it. -/
theorem removeUploadedFile_filters (fileId : JSVal) (s : State) :
    (∀ f ∈ (removeUploadedFile fileId s).uploadedFiles,
      strictEq (Obj.get f "id") fileId = false) ∧
    (fileId.isPrimitive = true →
      ∀ f ∈ (removeUploadedFile fileId s).uploadedFiles, Obj.get f "id" ≠ fileId) ∧
    (removeUploadedFile fileId s).uploadedFiles.Sublist s.uploadedFiles ∧
    (∀ f, strictEq (Obj.get f "id") fileId = false →
      (removeUploadedFile fileId s).uploadedFiles.count f = s.uploadedFiles.count f) ∧
    ((∀ f ∈ s.uploadedFiles, strictEq (Obj.get f "id") fileId = false) →
      removeUploadedFile fileId s = s) ∧
    removeUploadedFile fileId (removeUploadedFile fileId s) = removeUploadedFile fileId s := by
  refine ⟨?_, ?_, ?_, ?_, ?_, ?_⟩
  · intro f hf
    simp only [removeUploadedFile, List.mem_filter] at hf
    simpa using hf.2
  · intro hp f hf heq
    simp only [removeUploadedFile, List.mem_filter] at hf
    have := strictEq_self_of_primitive hp
    rw [heq] at hf
    simp [this] at hf
  · exact List.filter_sublist _
  · intro f hf
    simp only [removeUploadedFile]
    rw [List.count_filter]
    simp [hf]
  · intro h
    have : s.uploadedFiles.filter (fun f => !strictEq (Obj.get f "id") fileId)
        = s.uploadedFiles := by
      rw [List.filter_eq_self]
      intro f hf
      simp [h f hf]
    simp only [removeUploadedFile, this]
  · simp [removeUploadedFile, List.filter_filter]

/-! ## The notification broadcaster -/

theorem findIndex_eq_none {α : Type} (p : α → Bool) (l : List α) :
    findIndex p l = none ↔ ∀ x ∈ l, p x = false := by
  induction l with
  | nil => simp [findIndex]
  | cons x xs ih =>
    cases hp : p x <;> simp [findIndex, hp, ih]

theorem eraseIdx_of_findIndex {α : Type} (p : α → Bool) (l : List α) (i : Nat)
    (h : findIndex p l = some i) : l.eraseIdx i = l.eraseP p := by
  induction l generalizing i with
  | nil => simp [findIndex] at h
  | cons x xs ih =>
    cases hp : p x
    · cases hf : findIndex p xs with
      | none => simp [findIndex, hp, hf] at h
      | some j =>
        simp only [findIndex, hp, hf, Bool.false_eq_true, if_false, Option.map_some',
          Option.some.injEq] at h
        subst h
        simp [List.eraseP_cons, hp, ih j hf]
    · simp only [findIndex, hp, if_true, Option.some.injEq] at h
      subst h
      simp [List.eraseP_cons, hp]

theorem eraseP_eq_self_of_none {α : Type} (p : α → Bool) (l : List α)
    (h : ∀ x ∈ l, p x = false) : l.eraseP p = l := by
  induction l with
  | nil => rfl
  | cons x xs ih =>
    have hx := h x (List.mem_cons_self _ _)
    simp [List.eraseP_cons, hx, ih (fun y hy => h y (List.mem_cons_of_mem _ hy))]

theorem eraseP_eq_filter_of_nodup {α β : Type} (p : α → Bool) (key : α → β) (c : β)
    (l : List α) (hkey : ∀ x, p x = true → key x = c) (hnodup : (l.map key).Nodup) :
    l.eraseP p = l.filter (fun x => !p x) := by
  induction l with
  | nil => rfl
  | cons x xs ih =>
    have hn : key x ∉ xs.map key ∧ (xs.map key).Nodup := by simpa using hnodup
    cases hp : p x
    · simp [List.eraseP_cons, hp, ih hn.2]
    · have hrest : ∀ y ∈ xs, p y = false := by
        intro y hy
        cases hy2 : p y
        · rfl
        · exact absurd (List.mem_map.2 ⟨y, hy, (hkey y hy2).trans (hkey x hp).symm⟩) hn.1
      have hfilter : xs.filter (fun x => !p x) = xs := by
        rw [List.filter_eq_self]
        intro y hy
        simp [hrest y hy]
      simp [List.eraseP_cons, hp, hfilter]

theorem removeToast_toasts (id : JSVal) (b : Broadcaster) :
    (removeToast id b).state.toasts
      = b.toasts.eraseP (fun t => strictEq (Obj.get t "id") id) := by
  unfold removeToast
  cases h : findIndex (fun t => strictEq (Obj.get t "id") id) b.toasts with
  | none => exact (eraseP_eq_self_of_none _ _ ((findIndex_eq_none _ _).1 h)).symm
  | some i => exact eraseIdx_of_findIndex _ _ i h

theorem unsubscribe_listeners (listener : Nat) (b : Broadcaster) :
    (unsubscribe listener b).listeners = b.listeners.eraseP (fun l => l == listener) := by
  unfold unsubscribe
  cases h : findIndex (fun l => l == listener) b.listeners with
  | none => exact (eraseP_eq_self_of_none _ _ ((findIndex_eq_none _ _).1 h)).symm
  | some i => exact eraseIdx_of_findIndex _ _ i h

theorem idsIssued_iff (b : Broadcaster) :
    b.idsIssued = true ↔ ∀ t ∈ b.toasts, ∃ n, Obj.get t "id" = num n ∧ n ≤ b.toastId := by
  simp only [Broadcaster.idsIssued, List.all_eq_true]
  constructor
  · intro h t ht
    have := h t ht
    split at this
    · next n hn => exact ⟨n, hn, by simpa using this⟩
    · cases this
  · intro h t ht
    obtain ⟨n, hn, hle⟩ := h t ht
    simp [hn, hle]

theorem addToast_typed (now : Int) (kind : String) (message : JSVal) (b : Broadcaster) :
    addToast now [("type", str kind), ("message", message)] b =
      { state :=
          { toastId := b.toastId + 1
            toasts := b.toasts ++ [[("id", num (b.toastId + 1)), ("type", str kind),
              ("message", message), ("createdAt", num now)]]
            listeners := b.listeners }
        calls := b.listeners.map fun l =>
          (l, b.toasts ++ [[("id", num (b.toastId + 1)), ("type", str kind),
            ("message", message), ("createdAt", num now)]])
        timers := [(num (b.toastId + 1), 5000)] } := by
  simp [addToast, fanOut, Obj.spread, Obj.set]

theorem inv_push (b : Broadcaster) (rest : Obj) (hinv : b.Inv) :
    Broadcaster.Inv
      { toastId := b.toastId + 1
        toasts := b.toasts ++ [("id", num (b.toastId + 1)) :: rest]
        listeners := b.listeners } := by
  obtain ⟨hl, hi, hn⟩ := hinv
  have hids := (idsIssued_iff b).1 hi
  refine ⟨hl, ?_, ?_⟩
  · rw [idsIssued_iff]
    intro t ht
    simp only [List.mem_append, List.mem_singleton] at ht
    rcases ht with ht | rfl
    · obtain ⟨n, hn1, hn2⟩ := hids t ht
      exact ⟨n, hn1, show n ≤ b.toastId + 1 by omega⟩
    · exact ⟨b.toastId + 1, by simp [Obj.get], le_refl _⟩
  · simp only [List.map_append, List.map_cons, List.map_nil]
    refine List.Nodup.append hn (List.nodup_singleton _) ?_
    intro v hv hv2
    rw [List.mem_singleton] at hv2
    obtain ⟨t, ht, heq⟩ := List.mem_map.1 hv
    obtain ⟨n, hn1, hn2⟩ := hids t ht
    rw [hn1, hv2] at heq
    simp [Obj.get] at heq
    omega

theorem inv_initialBroadcaster : initialBroadcaster.Inv := by decide

theorem inv_removeToast (id : JSVal) (b : Broadcaster) (hinv : b.Inv) :
    (removeToast id b).state.Inv := by
  have hsub : ((removeToast id b).state.toasts).Sublist b.toasts := by
    rw [removeToast_toasts]
    exact List.eraseP_sublist _
  have hl : (removeToast id b).state.listeners = b.listeners := by
    unfold removeToast
    cases findIndex (fun t => strictEq (Obj.get t "id") id) b.toasts <;> rfl
  have hc : (removeToast id b).state.toastId = b.toastId := by
    unfold removeToast
    cases findIndex (fun t => strictEq (Obj.get t "id") id) b.toasts <;> rfl
  refine ⟨hl ▸ hinv.1, ?_, List.Nodup.sublist (hsub.map _) hinv.2.2⟩
  rw [idsIssued_iff]
  intro t ht
  rw [hc]
  exact (idsIssued_iff b).1 hinv.2.1 t (hsub.subset ht)

theorem inv_subscribe (listener : Nat) (b : Broadcaster) (hinv : b.Inv)
    (hfresh : listener ∉ b.listeners) : (subscribe listener b).Inv := by
  refine ⟨?_, hinv.2.1, hinv.2.2⟩
  simp only [subscribe]
  refine List.Nodup.append hinv.1 (List.nodup_singleton _) ?_
  intro l hl hl2
  rw [List.mem_singleton] at hl2
  exact hfresh (hl2 ▸ hl)

theorem inv_unsubscribe (listener : Nat) (b : Broadcaster) (hinv : b.Inv) :
    (unsubscribe listener b).Inv := by
  have hsub : ((unsubscribe listener b).listeners).Sublist b.listeners := by
    rw [unsubscribe_listeners]
    exact List.eraseP_sublist _
  have ht : (unsubscribe listener b).toasts = b.toasts := by
    unfold unsubscribe
    cases findIndex (fun l => l == listener) b.listeners <;> rfl
  have hc : (unsubscribe listener b).toastId = b.toastId := by
    unfold unsubscribe
    cases findIndex (fun l => l == listener) b.listeners <;> rfl
  refine ⟨List.Nodup.sublist hsub hinv.1, ?_, ht ▸ hinv.2.2⟩
  rw [idsIssued_iff, ht, hc]
  exact (idsIssued_iff b).1 hinv.2.1

/-- C17. Each of `toast.success`, `toast.error` and `toast.info` appends to the
end of the queue one toast with the corresponding type, the given message, the
clock reading, and the id that follows the counter, which is greater than the id
of every toast of the queue and becomes the counter; it calls every registered
listener once, in registration order, each with the full updated queue. -/
theorem toast_creation (now : Int) (message : JSVal) (b : Broadcaster) (hinv : b.Inv) :
    ∀ p ∈ [(toast.success now message b, "success"), (toast.error now message b, "error"),
           (toast.info now message b, "info")],
      p.1.state.toasts = b.toasts ++ [[("id", num (b.toastId + 1)), ("type", str p.2),
        ("message", message), ("createdAt", num now)]] ∧
      (∀ t ∈ b.toasts, ∃ n, Obj.get t "id" = num n ∧ n < b.toastId + 1) ∧
      p.1.state.toastId = b.toastId + 1 ∧
      p.1.calls = b.listeners.map (fun l => (l, p.1.state.toasts)) ∧
      (∀ l ∈ b.listeners, (p.1.calls.map Prod.fst).count l = 1) ∧
      p.1.state.listeners = b.listeners ∧
      p.1.state.Inv := by
  have hids : ∀ t ∈ b.toasts, ∃ n, Obj.get t "id" = num n ∧ n < b.toastId + 1 := by
    intro t ht
    obtain ⟨n, hn1, hn2⟩ := (idsIssued_iff b).1 hinv.2.1 t ht
    exact ⟨n, hn1, by omega⟩
  have hmain : ∀ kind : String,
      (addToast now [("type", str kind), ("message", message)] b).state.toasts
        = b.toasts ++ [[("id", num (b.toastId + 1)), ("type", str kind),
          ("message", message), ("createdAt", num now)]] ∧
      (∀ t ∈ b.toasts, ∃ n, Obj.get t "id" = num n ∧ n < b.toastId + 1) ∧
      (addToast now [("type", str kind), ("message", message)] b).state.toastId
        = b.toastId + 1 ∧
      (addToast now [("type", str kind), ("message", message)] b).calls
        = b.listeners.map (fun l =>
            (l, (addToast now [("type", str kind), ("message", message)] b).state.toasts)) ∧
      (∀ l ∈ b.listeners,
        ((addToast now [("type", str kind), ("message", message)] b).calls.map
          Prod.fst).count l = 1) ∧
      (addToast now [("type", str kind), ("message", message)] b).state.listeners
        = b.listeners ∧
      (addToast now [("type", str kind), ("message", message)] b).state.Inv := by
    intro kind
    rw [addToast_typed]
    refine ⟨rfl, hids, rfl, rfl, ?_, rfl, inv_push b _ hinv⟩
    intro l hl
    simp only [List.map_map]
    have : (Prod.fst ∘ fun l : Nat =>
        (l, b.toasts ++ [[("id", num (b.toastId + 1)), ("type", str kind),
          ("message", message), ("createdAt", num now)]])) = id := rfl
    rw [this, List.map_id]
    exact List.count_eq_one_of_mem hinv.1 hl
  intro p hp
  simp only [List.mem_cons, List.mem_singleton, List.not_mem_nil, or_false] at hp
  rcases hp with rfl | rfl | rfl
  · exact hmain "success"
  · exact hmain "error"
  · exact hmain "info"

theorem toast_creation_witness :
    sampleBroadcaster.Inv ∧
    (toast.error 1700000002000 (str "bad key") sampleBroadcaster, "error") ∈
      [(toast.success 1700000002000 (str "bad key") sampleBroadcaster, "success"),
       (toast.error 1700000002000 (str "bad key") sampleBroadcaster, "error"),
       (toast.info 1700000002000 (str "bad key") sampleBroadcaster, "info")] ∧
    (toast.error 1700000002000 (str "bad key") sampleBroadcaster).state.toasts
      = sampleBroadcaster.toasts ++
        [[("id", num (sampleBroadcaster.toastId + 1)), ("type", str "error"),
          ("message", str "bad key"), ("createdAt", num 1700000002000)]] ∧
    (∀ t ∈ sampleBroadcaster.toasts,
      ∃ n, Obj.get t "id" = num n ∧ n < sampleBroadcaster.toastId + 1) ∧
    (toast.error 1700000002000 (str "bad key") sampleBroadcaster).state.toastId
      = sampleBroadcaster.toastId + 1 ∧
    (toast.error 1700000002000 (str "bad key") sampleBroadcaster).calls
      = sampleBroadcaster.listeners.map (fun l =>
          (l, (toast.error 1700000002000 (str "bad key") sampleBroadcaster).state.toasts)) ∧
    (∀ l ∈ sampleBroadcaster.listeners,
      ((toast.error 1700000002000 (str "bad key") sampleBroadcaster).calls.map
        Prod.fst).count l = 1) ∧
    (toast.error 1700000002000 (str "bad key") sampleBroadcaster).state.listeners
      = sampleBroadcaster.listeners ∧
    (toast.error 1700000002000 (str "bad key") sampleBroadcaster).state.Inv :=
  ⟨by decide, by decide,
   toast_creation 1700000002000 (str "bad key") sampleBroadcaster (by decide)
     (toast.error 1700000002000 (str "bad key") sampleBroadcaster, "error") (by decide)⟩

/-- C18. When the expiry of a toast fires, `removeToast` with the id of the
toast leaves a queue with no toast of that id and with every other toast as it
was and in the same order, whatever listeners are registered; when a toast had
the id, each registered listener is called with the updated queue; when no toast
has the id any more, nothing changes and no listener is called. -/
theorem removeToast_expiry (id : JSVal) (b : Broadcaster) (hinv : b.Inv) :
    (∀ t ∈ (removeToast id b).state.toasts, strictEq (Obj.get t "id") id = false) ∧
    (removeToast id b).state.toasts
      = b.toasts.filter (fun t => !strictEq (Obj.get t "id") id) ∧
    ((∃ t ∈ b.toasts, strictEq (Obj.get t "id") id = true) →
      (removeToast id b).calls
        = b.listeners.map (fun l => (l, (removeToast id b).state.toasts))) ∧
    ((∀ t ∈ b.toasts, strictEq (Obj.get t "id") id = false) →
      removeToast id b = { state := b, calls := [], timers := [] }) ∧
    (removeToast id b).state.listeners = b.listeners ∧
    (removeToast id b).state.toastId = b.toastId := by
  have hfilter : (removeToast id b).state.toasts
      = b.toasts.filter (fun t => !strictEq (Obj.get t "id") id) := by
    rw [removeToast_toasts]
    exact eraseP_eq_filter_of_nodup _ (fun t => Obj.get t "id") id b.toasts
      (fun t ht => strictEq_eq_true ht) hinv.2.2
  refine ⟨?_, hfilter, ?_, ?_, ?_, ?_⟩
  · intro t ht
    rw [hfilter, List.mem_filter] at ht
    simpa using ht.2
  · rintro ⟨t, ht, hmatch⟩
    unfold removeToast
    cases h : findIndex (fun t => strictEq (Obj.get t "id") id) b.toasts with
    | none => rw [(findIndex_eq_none _ _).1 h t ht] at hmatch; cases hmatch
    | some i => rfl
  · intro hnone
    unfold removeToast
    rw [(findIndex_eq_none _ _).2 hnone]
  · unfold removeToast
    cases findIndex (fun t => strictEq (Obj.get t "id") id) b.toasts <;> rfl
  · unfold removeToast
    cases findIndex (fun t => strictEq (Obj.get t "id") id) b.toasts <;> rfl

theorem removeToast_expiry_witness :
    sampleBroadcaster.Inv ∧
    (∀ t ∈ (removeToast (num 1) sampleBroadcaster).state.toasts,
      strictEq (Obj.get t "id") (num 1) = false) ∧
    (removeToast (num 1) sampleBroadcaster).state.toasts
      = sampleBroadcaster.toasts.filter (fun t => !strictEq (Obj.get t "id") (num 1)) ∧
    ((∃ t ∈ sampleBroadcaster.toasts, strictEq (Obj.get t "id") (num 1) = true) →
      (removeToast (num 1) sampleBroadcaster).calls
        = sampleBroadcaster.listeners.map
            (fun l => (l, (removeToast (num 1) sampleBroadcaster).state.toasts))) ∧
    ((∀ t ∈ sampleBroadcaster.toasts, strictEq (Obj.get t "id") (num 1) = false) →
      removeToast (num 1) sampleBroadcaster
        = { state := sampleBroadcaster, calls := [], timers := [] }) ∧
    (removeToast (num 1) sampleBroadcaster).state.listeners = sampleBroadcaster.listeners ∧
    (removeToast (num 1) sampleBroadcaster).state.toastId = sampleBroadcaster.toastId :=
  ⟨by decide, removeToast_expiry (num 1) sampleBroadcaster (by decide)⟩

/-- C19. The unsubscribe step for an observer that is not registered leaves
the registry unchanged; run twice for the same observer it leaves the registry
as it does run once; the other observers stay registered in their order; the
queue and the counter are not touched. -/
theorem unsubscribe_idempotent (listener : Nat) (b : Broadcaster) (h : b.listeners.Nodup) :
    (listener ∉ b.listeners → unsubscribe listener b = b) ∧
    unsubscribe listener (unsubscribe listener b) = unsubscribe listener b ∧
    (unsubscribe listener b).listeners = b.listeners.filter (fun l => l ≠ listener) ∧
    (unsubscribe listener b).toasts = b.toasts ∧
    (unsubscribe listener b).toastId = b.toastId := by
  have hfilter : ∀ b1 : Broadcaster, b1.listeners.Nodup →
      (unsubscribe listener b1).listeners = b1.listeners.filter (fun l => l ≠ listener) := by
    intro b1 h1
    rw [unsubscribe_listeners]
    have := eraseP_eq_filter_of_nodup (fun l : Nat => l == listener) id listener b1.listeners
      (fun l hl => by simpa using hl) (by simpa using h1)
    rw [this]
    apply List.filter_congr
    intro l _
    by_cases hl : l = listener <;> simp [hl]
  have hnone : ∀ b1 : Broadcaster, listener ∉ b1.listeners → unsubscribe listener b1 = b1 := by
    intro b1 hnot
    unfold unsubscribe
    rw [(findIndex_eq_none _ _).2 (fun l hl => by
      simp only [beq_eq_false_iff_ne]
      exact fun e => hnot (e ▸ hl))]
  refine ⟨hnone b, ?_, hfilter b h, ?_, ?_⟩
  · apply hnone
    rw [hfilter b h]
    simp
  · unfold unsubscribe
    cases findIndex (fun l => l == listener) b.listeners <;> rfl
  · unfold unsubscribe
    cases findIndex (fun l => l == listener) b.listeners <;> rfl

theorem unsubscribe_idempotent_witness :
    sampleBroadcaster.listeners.Nodup ∧
    (7 ∉ sampleBroadcaster.listeners → unsubscribe 7 sampleBroadcaster = sampleBroadcaster) ∧
    unsubscribe 7 (unsubscribe 7 sampleBroadcaster) = unsubscribe 7 sampleBroadcaster ∧
    (unsubscribe 7 sampleBroadcaster).listeners
      = sampleBroadcaster.listeners.filter (fun l => l ≠ 7) ∧
    (unsubscribe 7 sampleBroadcaster).toasts = sampleBroadcaster.toasts ∧
    (unsubscribe 7 sampleBroadcaster).toastId = sampleBroadcaster.toastId :=
  ⟨by decide, unsubscribe_idempotent 7 sampleBroadcaster (by decide)⟩

/-! ## Identity of agents, timeline steps and artifacts -/

theorem allWF_iff (xs : List Obj) : allWF xs = true ↔ ∀ x ∈ xs, Obj.WF x := by
  simp [allWF, List.all_eq_true]

theorem merge_keeps_key (x updates : Obj) (key : String) (hx : Obj.WF x)
    (hu : Obj.has updates key = false) :
    Obj.get (Obj.spread (Obj.spread [] x) updates) key = Obj.get x key := by
  rw [Obj.get_spread_of_not_has _ updates key hu, Obj.spread_nil_of_wf x hx]

theorem wf_merge (x updates : Obj) : Obj.WF (Obj.spread (Obj.spread [] x) updates) :=
  Obj.wf_spread _ _ (Obj.wf_spread _ _ (by simp [Obj.WF, Obj.keys]))

theorem map_merge_keeps (xs : List Obj) (target : JSVal) (updates : Obj)
    (hwf : ∀ x ∈ xs, Obj.WF x) (hu : Obj.has updates "id" = false) :
    ((xs.map fun x =>
        if strictEq (Obj.get x "id") target then Obj.spread (Obj.spread [] x) updates
        else x).map fun x => Obj.get x "id") = xs.map (fun x => Obj.get x "id") ∧
    ∀ y ∈ (xs.map fun x =>
        if strictEq (Obj.get x "id") target then Obj.spread (Obj.spread [] x) updates
        else x), Obj.WF y := by
  constructor
  · rw [List.map_map]
    apply List.map_congr_left
    intro x hx
    simp only [Function.comp]
    split
    · exact merge_keeps_key x updates "id" (hwf x hx) hu
    · rfl
  · intro y hy
    obtain ⟨x, hx, rfl⟩ := List.mem_map.1 hy
    split
    · exact wf_merge x updates
    · exact hwf x hx

theorem idsInv_op (op : Op) (s : State) (hinv : IdsInv s) (hk : op.keepsIds s = true) :
    IdsInv (op.apply s) := by
  obtain ⟨⟨ha, ht, hp⟩, hwa, hwt⟩ := hinv
  cases op with
  | setCurrentCase caseData => exact ⟨⟨ha, ht, hp⟩, hwa, hwt⟩
  | setAgents agents =>
    simp only [Op.keepsIds, Bool.and_eq_true, decide_eq_true_eq] at hk
    exact ⟨⟨hk.1, ht, hp⟩, (allWF_iff _).1 hk.2, hwt⟩
  | updateAgent agentId updates =>
    simp only [Op.keepsIds, Bool.not_eq_true', ] at hk
    have := map_merge_keeps s.agents agentId updates hwa hk
    refine ⟨⟨?_, ht, hp⟩, this.2, hwt⟩
    show (List.map _ (List.map _ s.agents)).Nodup
    rw [this.1]
    exact ha
  | setTimeline timeline =>
    simp only [Op.keepsIds, Bool.and_eq_true, decide_eq_true_eq] at hk
    exact ⟨⟨ha, hk.1, hp⟩, hwa, (allWF_iff _).1 hk.2⟩
  | addTimelineStep step =>
    simp only [Op.keepsIds, Bool.and_eq_true, decide_eq_true_eq] at hk
    refine ⟨⟨ha, ?_, hp⟩, hwa, ?_⟩
    · show (List.map _ (s.timeline ++ [step])).Nodup
      rw [List.map_append]
      refine List.Nodup.append ht (List.nodup_singleton _) ?_
      intro v hv hv2
      simp only [List.map_cons, List.map_nil, List.mem_singleton] at hv2
      exact hk.2 (hv2 ▸ hv)
    · intro x hx
      rcases List.mem_append.1 hx with hx | hx
      · exact hwt x hx
      · rw [List.mem_singleton] at hx
        exact hx ▸ hk.1
  | updateTimelineStep stepId updates =>
    simp only [Op.keepsIds, Bool.not_eq_true'] at hk
    have := map_merge_keeps s.timeline stepId updates hwt hk
    refine ⟨⟨ha, ?_, hp⟩, hwa, this.2⟩
    show (List.map _ (List.map _ s.timeline)).Nodup
    rw [this.1]
    exact ht
  | setArtifacts artifacts =>
    simp only [Op.keepsIds, decide_eq_true_eq] at hk
    exact ⟨⟨ha, ht, hk⟩, hwa, hwt⟩
  | addArtifact artifact =>
    simp only [Op.keepsIds, decide_eq_true_eq] at hk
    refine ⟨⟨ha, ht, ?_⟩, hwa, hwt⟩
    show (List.map _ (s.artifacts ++ [artifact])).Nodup
    rw [List.map_append]
    refine List.Nodup.append hp (List.nodup_singleton _) ?_
    intro v hv hv2
    simp only [List.map_cons, List.map_nil, List.mem_singleton] at hv2
    exact hk (hv2 ▸ hv)
  | addMessage clock message => exact ⟨⟨ha, ht, hp⟩, hwa, hwt⟩
  | setIsRunning isRunning => exact ⟨⟨ha, ht, hp⟩, hwa, hwt⟩
  | updateSettings newSettings => exact ⟨⟨ha, ht, hp⟩, hwa, hwt⟩
  | addUploadedFile file => exact ⟨⟨ha, ht, hp⟩, hwa, hwt⟩
  | removeUploadedFile fileId => exact ⟨⟨ha, ht, hp⟩, hwa, hwt⟩
  | reset =>
    exact ⟨⟨List.nodup_nil, List.nodup_nil, List.nodup_nil⟩,
      fun x hx => (by cases hx), fun x hx => (by cases hx)⟩

theorem handleSubmit_store (clock1 clock2 : Clock) (outcome : Outcome) (message : String)
    (s : State) :
    (handleSubmit clock1 clock2 outcome message s).store =
      if truthyStr (trim message) then
        submitFinish clock2 outcome (setIsRunning true (appendUserMessage clock1 message s))
      else s := by
  cases h : truthyStr (trim message) <;> simp [handleSubmit, submitStart, h]

theorem idsInv_event (e : Event) (s : State) (hinv : IdsInv s) (hk : e.keepsIds s = true) :
    IdsInv (e.apply s) := by
  cases e with
  | call op => exact idsInv_op op s hinv hk
  | submit clock1 clock2 outcome message =>
    simp only [Event.apply, handleSubmit_store]
    cases htr : truthyStr (trim message)
    · simpa using hinv
    · simp only [if_true]
      obtain ⟨⟨ha, ht, hp⟩, hwa, hwt⟩ := hinv
      rcases outcome with _ | _ | data
      · exact ⟨⟨ha, ht, hp⟩, hwa, hwt⟩
      · exact ⟨⟨ha, ht, hp⟩, hwa, hwt⟩
      · simp only [Event.keepsIds, htr, Bool.not_true, Bool.false_or, Bool.and_eq_true,
          decide_eq_true_eq] at hk
        obtain ⟨⟨⟨⟨h1, h2⟩, h3⟩, h4⟩, h5⟩ := hk
        exact ⟨⟨h1, h3, h5⟩, (allWF_iff _).1 h2, (allWF_iff _).1 h4⟩

theorem idsInv_runEvents (events : List Event) (s : State) (hinv : IdsInv s)
    (hk : allKeepIds events s = true) : IdsInv (runEvents events s) := by
  induction events generalizing s with
  | nil => exact hinv
  | cons e rest ih =>
    simp only [allKeepIds, Bool.and_eq_true] at hk
    exact ih (e.apply s) (idsInv_event e s hinv hk.1) hk.2

/-- C20, the claim as stated fails. The store validates nothing: adding two
timeline steps with the same id leaves two steps that share the id, and so does
a pipeline run whose response lists an agent id twice. -/
theorem duplicate_ids_counterexample :
    ¬ (runEvents
        [Event.call (Op.addTimelineStep [("id", str "t1"), ("title", str "OCR")]),
         Event.call (Op.addTimelineStep [("id", str "t1"), ("title", str "OCR again")])]
        initialState).uniqueIds ∧
    ¬ (runEvents
        [Event.submit sampleClock1 sampleClock2
          (Outcome.resolved (some { sampleData with
            agents := some [[("id", str "a1")], [("id", str "a1")]] }))
          "draft a complaint"]
        initialState).uniqueIds := by
  decide

/-- C20, amended. Starting from the initial state, after every sequence of
store operations and pipeline runs in which no caller introduces a duplicate
(every list that replaces a collection, from a setter or from a response, has
no duplicate identity; every added step or artifact has an identity not yet in
its collection; no update carries an id), no two agents share an id, no two
timeline steps share an id, and no two artifacts share a path. -/
theorem uniqueIds_kept_by_callers (events : List Event)
    (h : allKeepIds events initialState = true) :
    (runEvents events initialState).uniqueIds :=
  (idsInv_runEvents events initialState
    ⟨by decide, fun x hx => (by cases hx), fun x hx => (by cases hx)⟩ h).1

theorem uniqueIds_kept_by_callers_witness :
    allKeepIds
      [Event.call (Op.setAgents [[("id", str "a1"), ("status", str "idle")],
                                 [("id", str "a2"), ("status", str "idle")]]),
       Event.call (Op.updateAgent (str "a1") [("status", str "running")]),
       Event.call (Op.addTimelineStep [("id", str "t1"), ("title", str "OCR")]),
       Event.call (Op.addTimelineStep [("id", str "t2"), ("title", str "Draft")]),
       Event.call (Op.addArtifact [("path", str "/out/a.pdf")]),
       Event.submit sampleClock1 sampleClock2 (Outcome.resolved (some sampleData))
         "draft a complaint"]
      initialState = true ∧
    (runEvents
      [Event.call (Op.setAgents [[("id", str "a1"), ("status", str "idle")],
                                 [("id", str "a2"), ("status", str "idle")]]),
       Event.call (Op.updateAgent (str "a1") [("status", str "running")]),
       Event.call (Op.addTimelineStep [("id", str "t1"), ("title", str "OCR")]),
       Event.call (Op.addTimelineStep [("id", str "t2"), ("title", str "Draft")]),
       Event.call (Op.addArtifact [("path", str "/out/a.pdf")]),
       Event.submit sampleClock1 sampleClock2 (Outcome.resolved (some sampleData))
         "draft a complaint"]
      initialState).uniqueIds :=
  ⟨by decide, uniqueIds_kept_by_callers _ (by decide)⟩

/-! ## Merge by id -/

theorem merged_fields (x updates : Obj) (k : String) (hx : Obj.WF x) (hu : Obj.WF updates) :
    Obj.get (Obj.spread (Obj.spread [] x) updates) k
      = (if Obj.has updates k then Obj.get updates k else Obj.get x k) ∧
    Obj.has (Obj.spread (Obj.spread [] x) updates) k = (Obj.has x k || Obj.has updates k) := by
  rw [Obj.has_spread, Obj.spread_nil_of_wf x hx]
  refine ⟨?_, rfl⟩
  cases hk : Obj.has updates k
  · simp [Obj.get_spread_of_not_has _ updates k hk]
  · simp [Obj.get_spread_of_has _ updates k hu hk]

theorem merge_at_position (xs : List Obj) (target : JSVal) (updates : Obj) (i : Nat) (x : Obj)
    (hwf : ∀ x ∈ xs, Obj.WF x) (hu : Obj.WF updates) (hi : xs[i]? = some x) :
    ∃ y, (xs.map fun x =>
        if strictEq (Obj.get x "id") target then Obj.spread (Obj.spread [] x) updates
        else x)[i]? = some y ∧
      (strictEq (Obj.get x "id") target = false → y = x) ∧
      (strictEq (Obj.get x "id") target = true →
        ∀ k, Obj.get y k = (if Obj.has updates k then Obj.get updates k else Obj.get x k) ∧
          Obj.has y k = (Obj.has x k || Obj.has updates k)) := by
  have hx : Obj.WF x := hwf x (List.getElem?_mem hi)
  refine ⟨_, by rw [List.getElem?_map, hi]; rfl, ?_, ?_⟩
  · intro h
    simp [h]
  · intro h k
    simp only [h, if_true]
    exact merged_fields x updates k hx hu

/-- C21. `updateAgent` and `updateTimelineStep` each return a collection of
the same length in which, at every position, an element whose id is not `===`
the given id is unchanged, and an element whose id is `===` the given id is that
element with the fields of the updates overriding its own: a field of the
updates has the value of the updates, every other field is present exactly when
it was and keeps its value.  No element is moved, added or removed. -/
theorem merge_by_id_preserves_position (target : JSVal) (updates : Obj) (s : State)
    (hu : Obj.WF updates) (ha : ∀ x ∈ s.agents, Obj.WF x) (ht : ∀ x ∈ s.timeline, Obj.WF x) :
    ((updateAgent target updates s).agents.length = s.agents.length ∧
      ∀ (i : Nat) (x : Obj), s.agents[i]? = some x →
        ∃ y, (updateAgent target updates s).agents[i]? = some y ∧
          (strictEq (Obj.get x "id") target = false → y = x) ∧
          (strictEq (Obj.get x "id") target = true →
            ∀ k, Obj.get y k
                = (if Obj.has updates k then Obj.get updates k else Obj.get x k) ∧
              Obj.has y k = (Obj.has x k || Obj.has updates k))) ∧
    ((updateTimelineStep target updates s).timeline.length = s.timeline.length ∧
      ∀ (i : Nat) (x : Obj), s.timeline[i]? = some x →
        ∃ y, (updateTimelineStep target updates s).timeline[i]? = some y ∧
          (strictEq (Obj.get x "id") target = false → y = x) ∧
          (strictEq (Obj.get x "id") target = true →
            ∀ k, Obj.get y k
                = (if Obj.has updates k then Obj.get updates k else Obj.get x k) ∧
              Obj.has y k = (Obj.has x k || Obj.has updates k))) := by
  refine ⟨⟨?_, ?_⟩, ⟨?_, ?_⟩⟩
  · simp [updateAgent]
  · intro i x hi
    exact merge_at_position s.agents target updates i x ha hu hi
  · simp [updateTimelineStep]
  · intro i x hi
    exact merge_at_position s.timeline target updates i x ht hu hi

theorem merge_by_id_preserves_position_witness :
    Obj.WF [("status", str "running"), ("progress", num 40)] ∧
    (∀ x ∈ sampleRoster.agents, Obj.WF x) ∧ (∀ x ∈ sampleRoster.timeline, Obj.WF x) ∧
    ((updateAgent (str "a2") [("status", str "running"), ("progress", num 40)]
        sampleRoster).agents
      = [[("id", str "a1"), ("name", str "Intake"), ("status", str "idle")],
         [("id", str "a2"), ("name", str "Drafter"), ("status", str "running"),
          ("progress", num 40)]]) ∧
    ((updateAgent (str "a2") [("status", str "running"), ("progress", num 40)]
        sampleRoster).agents.length = sampleRoster.agents.length ∧
      ∀ (i : Nat) (x : Obj), sampleRoster.agents[i]? = some x →
        ∃ y, (updateAgent (str "a2") [("status", str "running"), ("progress", num 40)]
            sampleRoster).agents[i]? = some y ∧
          (strictEq (Obj.get x "id") (str "a2") = false → y = x) ∧
          (strictEq (Obj.get x "id") (str "a2") = true →
            ∀ k, Obj.get y k
                = (if Obj.has [("status", str "running"), ("progress", num 40)] k
                   then Obj.get [("status", str "running"), ("progress", num 40)] k
                   else Obj.get x k) ∧
              Obj.has y k
                = (Obj.has x k || Obj.has [("status", str "running"), ("progress", num 40)] k))) ∧
    ((updateTimelineStep (str "a2") [("status", str "running"), ("progress", num 40)]
        sampleRoster).timeline.length = sampleRoster.timeline.length ∧
      ∀ (i : Nat) (x : Obj), sampleRoster.timeline[i]? = some x →
        ∃ y, (updateTimelineStep (str "a2") [("status", str "running"), ("progress", num 40)]
            sampleRoster).timeline[i]? = some y ∧
          (strictEq (Obj.get x "id") (str "a2") = false → y = x) ∧
          (strictEq (Obj.get x "id") (str "a2") = true →
            ∀ k, Obj.get y k
                = (if Obj.has [("status", str "running"), ("progress", num 40)] k
                   then Obj.get [("status", str "running"), ("progress", num 40)] k
                   else Obj.get x k) ∧
              Obj.has y k
                = (Obj.has x k || Obj.has [("status", str "running"), ("progress", num 40)] k))) :=
  ⟨by decide, by decide, by decide, by decide,
   merge_by_id_preserves_position (str "a2") [("status", str "running"), ("progress", num 40)]
     sampleRoster (by decide) (by decide) (by decide)⟩

end CaseStore
